import Mathlib

/-!
Verification of the Increasing Faith Ministries newsletter pipeline.

This file gives a shallow embedding of the relevant JavaScript modules
(content-gatherer.js, newsletter-generator.js, publish.js, subscribers.js,
send-newsletter.js, send-alert.js, netlify/functions/newsletter-signup.js)
and proves the behavioural properties claimed in the specification.

JavaScript strings are modelled as lists of natural-number code points
(`List Nat`), which matches the sequence-of-code-units view that the
string operations used by the code (toLowerCase on ASCII, trim, includes,
substring, regex tag stripping) act on.  Network effects are modelled by
passing the outcome of each external call as an explicit argument
(an oracle), so every function is total and executable.
-/

/-! ## Shared string-code utilities -/

/-- Code points of a Lean string literal, used to transcribe the concrete
string constants of the JavaScript source into the `List Nat` model. -/
def codes (s : String) : List Nat :=
  s.data.map Char.toNat

/-- Whitespace test for a code point, modelling the character class removed
by JavaScript `String.prototype.trim` (tab, line feed, vertical tab, form
feed, carriage return, space, no-break space). -/
def isWsCode (n : Nat) : Bool :=
  decide (n = 9 ∨ n = 10 ∨ n = 11 ∨ n = 12 ∨ n = 13 ∨ n = 32 ∨ n = 160)

/-- ASCII lower-casing of one code point, modelling what JavaScript
`toLowerCase` does on the ASCII range (the only range the keyword matching
and email normalisation in this code base rely on). -/
def lowerCode (n : Nat) : Nat :=
  if 65 ≤ n ∧ n ≤ 90 then n + 32 else n

/-- Lower-case a whole string, modelling `s.toLowerCase()`. -/
def lowerL (l : List Nat) : List Nat :=
  l.map lowerCode

/-- Remove leading whitespace. -/
def dropWs (l : List Nat) : List Nat :=
  l.dropWhile isWsCode

/-- Remove trailing whitespace. -/
def rstripWs : List Nat → List Nat
  | [] => []
  | c :: t =>
    if (rstripWs t).isEmpty ∧ isWsCode c then [] else c :: rstripWs t

/-- Remove leading and trailing whitespace, modelling `s.trim()`. -/
def trimL (l : List Nat) : List Nat :=
  rstripWs (dropWs l)

/-- Prefix test: does `hay` start with `needle`. -/
def leadsWith : List Nat → List Nat → Bool
  | [], _ => true
  | _ :: _, [] => false
  | a :: as, b :: bs => a == b && leadsWith as bs

/-- Substring test, modelling `hay.includes(needle)`. -/
def containsSub (hay needle : List Nat) : Bool :=
  match hay with
  | [] => needle.isEmpty
  | _ :: t => leadsWith needle hay || containsSub t needle

/-- Position just after the first `>` of a list, if any; helper for the
tag-stripping regex. -/
def afterGt : List Nat → Option (List Nat)
  | [] => none
  | c :: t => if c = 62 then some t else afterGt t

/-- Fuel-indexed worker for `stripTags`.  The fuel only bounds the
recursion depth; `stripTags` always supplies enough fuel (one unit per
input element), so the fuel-exhausted clause is never reached. -/
def stripTagsAux : Nat → List Nat → List Nat
  | 0, l => l
  | _ + 1, [] => []
  | fuel + 1, c :: t =>
    if c = 60 then
      match afterGt t with
      | some r => stripTagsAux fuel r
      | none => c :: stripTagsAux fuel t
    else c :: stripTagsAux fuel t

/-- Remove HTML tags, modelling `s.replace(/<[^>]*>/g, '')`: each maximal
`<...>` group (a `<`, any run of non-`>` characters, then `>`) is deleted;
a `<` with no later `>` is kept literally. -/
def stripTags (l : List Nat) : List Nat :=
  stripTagsAux l.length l

/-! ## Subscribers (subscribers.js) -/

/-- Subscriber record produced by `getSubscribers` in subscribers.js:
name, email and the `created_at` submission timestamp.  The timestamp is
modelled as a natural number ordered like the date strings it stands for. -/
structure Subscriber where
  name : List Nat
  email : List Nat
  subscribedAt : Nat
deriving DecidableEq

/-- Email key used by deduplication: `sub.email.toLowerCase().trim()`. -/
def normEmail (e : List Nat) : List Nat :=
  trimL (lowerL e)

/-- Worker for `deduplicateSubscribers`, carrying the `seen` set of
normalised emails. -/
def dedupAux (seen : List (List Nat)) : List Subscriber → List Subscriber
  | [] => []
  | s :: t =>
    let ne := normEmail s.email
    if ne ∈ seen then dedupAux seen t
    else { s with email := ne } :: dedupAux (ne :: seen) t

/-- Model of `deduplicateSubscribers` from subscribers.js: walk the list,
keep the first subscriber for each normalised email, rewriting the kept
entry's email to the normalised form. -/
def deduplicateSubscribers (subscribers : List Subscriber) : List Subscriber :=
  dedupAux [] subscribers

/-! ## Publisher (publish.js) -/

/-- Archive index entry as written by `publishNewsletter`. -/
structure ArchiveEntry where
  dateKey : String
  title : String
  dateString : String
  theme : Option String
  generatedAt : String
  jsonFile : String
  htmlFile : String
deriving DecidableEq

/-- Theme record `{ theme, focus }` used by the gatherer and newsletter
metadata. -/
structure Theme where
  theme : String
  focus : String
deriving DecidableEq

/-- Newsletter metadata fields used by the publisher. -/
structure NewsMeta where
  title : String
  subtitle : String
  month : Nat
  year : Nat
  dateString : String
  generatedAt : String
  theme : Option Theme
deriving DecidableEq

/-- Two-digit zero padding of a month number. -/
def pad2 (m : Nat) : String :=
  if m < 10 then "0" ++ toString m else toString m

/-- Model of `format(new Date(year, month - 1, 1), 'yyyy-MM')` for a
calendar month 1..12: the zero-padded `YYYY-MM` date key. -/
def dateKeyOf (year month : Nat) : String :=
  toString year ++ "-" ++ pad2 month

/-- The archive entry `publishNewsletter` prepends, built from the
newsletter metadata. -/
def archiveEntryOf (meta : NewsMeta) : ArchiveEntry :=
  { dateKey := dateKeyOf meta.year meta.month
    title := meta.title
    dateString := meta.dateString
    theme := meta.theme.map (fun t => t.theme)
    generatedAt := meta.generatedAt
    jsonFile := dateKeyOf meta.year meta.month ++ ".json"
    htmlFile := dateKeyOf meta.year meta.month ++ ".html" }

/-- Archive-index update performed by `publishNewsletter` in publish.js:
remove every existing entry whose `dateKey` equals the newsletter's date
key, then prepend the new entry (newest first).  The JSON/HTML file writes
done by the same function do not touch the archive list and are not
modelled. -/
def publishNewsletter (archive : List ArchiveEntry) (meta : NewsMeta) : List ArchiveEntry :=
  let dateKey := dateKeyOf meta.year meta.month
  archiveEntryOf meta :: archive.filter (fun entry => entry.dateKey ≠ dateKey)

/-! ## Content gatherer (content-gatherer.js) -/

/-- Article record produced by feed parsing.  `relevanceScore` is `none`
until `categorizeContent` attaches a score (the JavaScript objects gain
the field by spreading); the curated fallback stories carry no `link` or
`pubDate`, modelled as the empty string. -/
structure Article where
  title : List Nat
  link : List Nat
  description : List Nat
  pubDate : List Nat
  category : List Nat
  source : List Nat
  relevanceScore : Option Nat := none
deriving DecidableEq

/-- Raw text of one RSS `<item>` element, as extracted by the selectors in
`fetchRSSFeed` before trimming and cleaning. -/
structure RawItem where
  title : List Nat
  link : List Nat
  description : List Nat
  pubDate : List Nat
  category : List Nat
deriving DecidableEq

/-- Raw text of one Atom `<entry>` element (`link` is the `href`
attribute, already a plain string). -/
structure RawEntry where
  title : List Nat
  link : List Nat
  summary : List Nat
  published : List Nat
deriving DecidableEq

/-- A fetched feed document, seen as its RSS `<item>` elements and its
Atom `<entry>` elements in document order. -/
structure FeedDoc where
  items : List RawItem
  entries : List RawEntry
deriving DecidableEq

/-- Article built from an RSS item by `fetchRSSFeed`: fields are trimmed,
the description is tag-stripped and truncated by `substring(0, 300)`, and
an empty category falls back to `'General'`. -/
def mkRSSArticle (source : List Nat) (it : RawItem) : Article :=
  { title := trimL it.title
    link := trimL it.link
    description := (stripTags (trimL it.description)).take 300
    pubDate := trimL it.pubDate
    category := if trimL it.category = [] then codes "General" else trimL it.category
    source := source }

/-- Article built from an Atom entry by `fetchRSSFeed`. -/
def mkAtomArticle (source : List Nat) (en : RawEntry) : Article :=
  { title := trimL en.title
    link := en.link
    description := (stripTags (trimL en.summary)).take 300
    pubDate := trimL en.published
    category := codes "General"
    source := source }

/-- RSS pass of `fetchRSSFeed`: the `.each` callback stops at index 5, so
only the first 5 `<item>` elements are considered, and an item is pushed
only when its trimmed title is nonempty. -/
def parseRSSItems (source : List Nat) (items : List RawItem) : List Article :=
  ((items.take 5).filter (fun it => trimL it.title ≠ [])).map (mkRSSArticle source)

/-- Atom pass of `fetchRSSFeed`, same shape as the RSS pass. -/
def parseAtomEntries (source : List Nat) (entries : List RawEntry) : List Article :=
  ((entries.take 5).filter (fun en => trimL en.title ≠ [])).map (mkAtomArticle source)

/-- Parsing stage of `fetchRSSFeed` in content-gatherer.js, applied to a
successfully fetched document: parse RSS `<item>` elements first and only
when that yields no articles try the Atom `<entry>` elements.  The network
fetch itself (whose failure yields `[]`) is not part of this function. -/
def fetchRSSFeed (source : List Nat) (doc : FeedDoc) : List Article :=
  let articles := parseRSSItems source doc.items
  if articles.isEmpty then parseAtomEntries source doc.entries else articles

/-- The fixed keyword list of `categorizeContent`. -/
def relevanceKeywords : List (List Nat) :=
  [codes "kingdom", codes "church", codes "gospel", codes "mission", codes "revival",
   codes "disciple", codes "persecution", codes "faith", codes "prayer", codes "worship",
   codes "christian", codes "jesus", codes "lord", codes "spirit", codes "god",
   codes "bible", codes "scripture", codes "ministry", codes "plant", codes "evangel",
   codes "believer", codes "salvation", codes "bapti", codes "pastor", codes "community",
   codes "transform", codes "redemp", codes "grace", codes "mercy", codes "hope"]

/-- The text an article is scored and bucketed on:
`(article.title + ' ' + article.description).toLowerCase()`. -/
def textOf (a : Article) : List Nat :=
  lowerL (a.title ++ [32] ++ a.description)

/-- The scoring loop of `categorizeContent`: start at 0 and add 1 for each
keyword of the fixed list contained in the text. -/
def scoreOf (a : Article) : Nat :=
  relevanceKeywords.foldl (fun score keyword => if containsSub (textOf a) keyword then score + 1 else score) 0

/-- Attach the relevance score, modelling `{ ...article, relevanceScore: score }`. -/
def withScore (a : Article) : Article :=
  { a with relevanceScore := some (scoreOf a) }

/-- Read back the attached score (0 when absent; `categorizeContent` only
sorts articles that carry a score). -/
def scoreVal (a : Article) : Nat :=
  a.relevanceScore.getD 0

/-- Stable insertion into a descending-by-score list: the new element goes
in front of the first element whose score is not larger, so earlier
elements keep priority among ties. -/
def insertDesc (x : Article) : List Article → List Article
  | [] => [x]
  | y :: t => if scoreVal x < scoreVal y then y :: insertDesc x t else x :: y :: t

/-- Stable descending sort by score, modelling the ES2019-stable
`sort((a, b) => b.relevanceScore - a.relevanceScore)`. -/
def sortByScoreDesc : List Article → List Article
  | [] => []
  | x :: t => insertDesc x (sortByScoreDesc t)

/-- The `relevant` list of `categorizeContent`: scored articles with a
positive score, sorted descending by score (stable). -/
def relevantOf (articles : List Article) : List Article :=
  sortByScoreDesc ((articles.map withScore).filter (fun a => 0 < scoreVal a))

/-- Case-insensitive alternation test, modelling `/w1|w2|.../i.test(text)`
on the article text. -/
def bucketMatch (words : List (List Nat)) (a : Article) : Bool :=
  words.any (fun w => containsSub (textOf a) w)

/-- Topical buckets returned by `categorizeContent`. -/
structure Categorized where
  topStories : List Article
  missionNews : List Article
  persecutionUpdates : List Article
  revivalReports : List Article
  cultureInfluence : List Article
deriving DecidableEq

/-- Model of `categorizeContent` in content-gatherer.js: score every
article, keep the positively scored ones sorted descending, then draw each
bucket from that sorted list with an independent keyword filter capped at
3 (6 for top stories). -/
def categorizeContent (articles : List Article) : Categorized :=
  let relevant := relevantOf articles
  { topStories := relevant.take 6
    missionNews := (relevant.filter (bucketMatch [codes "mission", codes "plant", codes "evangel", codes "unreached"])).take 3
    persecutionUpdates := (relevant.filter (bucketMatch [codes "persecut", codes "martyr", codes "imprison", codes "underground"])).take 3
    revivalReports := (relevant.filter (bucketMatch [codes "revival", codes "awaken", codes "movement", codes "growth", codes "bapti"])).take 3
    cultureInfluence := (relevant.filter (bucketMatch [codes "culture", codes "societ", codes "education", codes "government", codes "business", codes "art", codes "media", codes "transform"])).take 3 }

/-- The January theme, which is also the out-of-range default of the
`monthlyThemes[month] || monthlyThemes[1]` lookup. -/
def janTheme : Theme :=
  ⟨"New Kingdom Beginnings", "Starting the year under Kingdom authority"⟩

/-- The `monthlyThemes` table of `getFallbackContent`. -/
def monthlyThemes (month : Nat) : Option Theme :=
  match month with
  | 1 => some janTheme
  | 2 => some ⟨"Kingdom Love", "The radical, sacrificial love of King Jesus"⟩
  | 3 => some ⟨"Kingdom Advancement", "Pressing forward into new territory for the King"⟩
  | 4 => some ⟨"Resurrection Power", "Living in the power of the risen Christ"⟩
  | 5 => some ⟨"Kingdom Mothers", "Raising the next generation of Kingdom citizens"⟩
  | 6 => some ⟨"Kingdom Fathers", "Fatherhood as Kingdom leadership"⟩
  | 7 => some ⟨"Kingdom Freedom", "True freedom under the reign of Christ"⟩
  | 8 => some ⟨"Kingdom Education", "Developing a Kingdom worldview"⟩
  | 9 => some ⟨"Kingdom Harvest", "The harvest is plentiful - laboring for the Kingdom"⟩
  | 10 => some ⟨"Kingdom Authority", "Walking in the authority Christ delegated to His Church"⟩
  | 11 => some ⟨"Kingdom Gratitude", "Thanksgiving as a Kingdom discipline"⟩
  | 12 => some ⟨"The King Has Come", "Advent - celebrating the arrival of the King"⟩
  | _ => none

/-- The month's theme: `monthlyThemes[month] || monthlyThemes[1]`. -/
def themeFor (month : Nat) : Theme :=
  (monthlyThemes month).getD janTheme

/-- Helper for transcribing a curated fallback story, which carries only
title, description, source and category. -/
def fallbackStory (title description source category : String) : Article :=
  { title := codes title, link := [], description := codes description
    pubDate := [], category := codes category, source := codes source }

/-- Curated fallback story `fallbackStories[0]`. -/
def fbStory0 : Article :=
  fallbackStory "Underground Church Growth Continues in Restricted Nations"
    "Despite increasing persecution, the underground church continues to grow in nations where Christianity is restricted. Reports indicate that house churches are multiplying as believers share the gospel with boldness."
    "Kingdom Intelligence Report" "Persecution & Growth"

/-- Curated fallback story `fallbackStories[1]`. -/
def fbStory1 : Article :=
  fallbackStory "Church Planting Movements Accelerate Across Global South"
    "Church planting movements in Africa, Asia, and Latin America continue to accelerate, with thousands of new congregations forming as the gospel penetrates unreached communities."
    "Kingdom Intelligence Report" "Missions"

/-- Curated fallback story `fallbackStories[2]`. -/
def fbStory2 : Article :=
  fallbackStory "Christians Making Impact in Business and Marketplace"
    "Kingdom-minded entrepreneurs and business leaders are increasingly using their platforms to advance Kingdom values, create jobs, and demonstrate the lordship of Christ in the marketplace."
    "Kingdom Intelligence Report" "Kingdom Influence"

/-- Curated fallback story `fallbackStories[3]`. -/
def fbStory3 : Article :=
  fallbackStory "Global Prayer Movement Intensifies"
    "Prayer movements around the world are growing in intensity and unity, with millions joining in coordinated intercession for revival, persecuted believers, and Kingdom breakthrough."
    "Kingdom Intelligence Report" "Prayer"

/-- Curated fallback story `fallbackStories[4]`. -/
def fbStory4 : Article :=
  fallbackStory "Youth Revival Sweeping College Campuses"
    "A fresh wave of spiritual awakening is being reported on college campuses, with students committing to radical discipleship and Kingdom living in the face of cultural pressure."
    "Kingdom Intelligence Report" "Revival"

/-- Curated fallback story `fallbackStories[5]`. -/
def fbStory5 : Article :=
  fallbackStory "Christian Education Initiatives Transforming Communities"
    "Kingdom-centered education initiatives are transforming communities by equipping students with both academic excellence and a biblical worldview rooted in the lordship of Christ."
    "Kingdom Intelligence Report" "Education"

/-- The six curated fallback stories of `getFallbackContent`. -/
def fallbackStories : List Article :=
  [fbStory0, fbStory1, fbStory2, fbStory3, fbStory4, fbStory5]

/-- The value `gather()` returns: the topical buckets plus the monthly
theme and the fallback marker.  The `metadata` object added at the end of
`gatherContent` records the run clock and is not modelled. -/
structure GatheredContent where
  topStories : List Article
  missionNews : List Article
  persecutionUpdates : List Article
  revivalReports : List Article
  cultureInfluence : List Article
  monthlyTheme : Theme
  isFallback : Bool
deriving DecidableEq

/-- Model of `getFallbackContent` in content-gatherer.js: the fixed
curated dataset with the theme keyed by calendar month. -/
def getFallbackContent (month : Nat) : GatheredContent :=
  { topStories := fallbackStories
    missionNews := [fbStory1]
    persecutionUpdates := [fbStory0]
    revivalReports := [fbStory4]
    cultureInfluence := [fbStory2, fbStory5]
    monthlyTheme := themeFor month
    isFallback := true }

/-- Model of `gatherContent(month, year)` in content-gatherer.js.
`feedResults` is the list of per-feed article lists produced by the
settle-all join of `gatherWebContent`; a failed or empty feed contributes
`[]` (its fetch error is caught inside `fetchRSSFeed`).  When at least one
article was gathered the articles are categorised and `isFallback` is
`false`; otherwise the curated fallback dataset is returned.  In both
cases the monthly theme ends up as `themeFor month`, because
`categorizeContent` produces no theme and `gatherContent` backfills it
from `getFallbackContent(month)`. -/
def gatherContent (month : Nat) (_year : Nat) (feedResults : List (List Article)) : GatheredContent :=
  let articles := feedResults.flatten
  if 0 < articles.length then
    let c := categorizeContent articles
    { topStories := c.topStories
      missionNews := c.missionNews
      persecutionUpdates := c.persecutionUpdates
      revivalReports := c.revivalReports
      cultureInfluence := c.cultureInfluence
      monthlyTheme := themeFor month
      isFallback := false }
  else getFallbackContent month

/-! ## AI section generator (newsletter-generator.js, config.js) -/

/-- The Groq API settings of `config.ai` in config.js (the floating-point
`temperature` field is not used by any control flow and is omitted). -/
structure AIConfig where
  baseUrl : String
  model : String
  maxTokens : Nat
  maxRetries : Nat
  retryDelayMs : Nat
deriving DecidableEq

/-- The concrete `config.ai` value. -/
def aiConfig : AIConfig :=
  { baseUrl := "https://api.groq.com/openai/v1/chat/completions"
    model := "llama-3.1-8b-instant"
    maxTokens := 4096
    maxRetries := 3
    retryDelayMs := 2000 }

/-- Trace of one `callGroqAI` invocation: the extracted completion text
(`none` when the final error is thrown), the index of the last attempt
made, and the list of backoff delays slept between attempts, in order. -/
structure CallTrace where
  result : Option String
  attempts : Nat
  delays : List Nat
deriving DecidableEq

/-- The retry loop of `callGroqAI`.  `o attempt` is the outcome of the
HTTP attempt with that 1-based index: `some text` when the response is
2xx and carries `choices[0].message.content`, `none` for a non-2xx
response, a malformed body or a network error (all of which reach the
`catch`).  `left` counts the attempts still allowed including the current
one; after a failure with further attempts left the loop sleeps
`retryDelayMs * attempt` and tries again, otherwise the error is thrown. -/
def callLoop (o : Nat → Option String) (delayMs : Nat) (attempt : Nat) : Nat → CallTrace
  | 0 => { result := none, attempts := attempt, delays := [] }
  | left + 1 =>
    match o attempt with
    | some s => { result := some s, attempts := attempt, delays := [] }
    | none =>
      if left = 0 then { result := none, attempts := attempt, delays := [] }
      else
        let t := callLoop o delayMs (attempt + 1) left
        { t with delays := delayMs * attempt :: t.delays }

/-- Model of `callGroqAI` in newsletter-generator.js: up to
`config.ai.maxRetries` attempts starting at attempt 1, with linear
backoff `config.ai.retryDelayMs * attempt` between attempts. -/
def callGroqAI (o : Nat → Option String) : CallTrace :=
  callLoop o aiConfig.retryDelayMs 1 aiConfig.maxRetries

/-- One newsletter section `{ title, content }`. -/
structure NewsletterSection where
  title : String
  content : String
deriving DecidableEq

/-- The six fixed sections of a newsletter. -/
structure Sections where
  pastoralMessage : NewsletterSection
  kingdomIntelligence : NewsletterSection
  kingdomLiving : NewsletterSection
  prayerFocus : NewsletterSection
  scriptureFocus : NewsletterSection
  upcoming : NewsletterSection
deriving DecidableEq

/-- A generated newsletter.  The metadata object (title, dates, theme) is
assembled from config and the clock after all six sections succeed and
plays no part in the claims about generation, so only the sections are
modelled. -/
structure Newsletter where
  sections : Sections
deriving DecidableEq

/-- Model of `generateNewsletter` in newsletter-generator.js: the six
section prompts are sent strictly sequentially, each through `callGroqAI`
with its own attempt oracle `o i`; any call that exhausts its retries
throws, aborting generation with no newsletter (`none`). -/
def generateNewsletter (o : Fin 6 → Nat → Option String) : Option Newsletter := do
  let pastoralMessage ← (callGroqAI (o 0)).result
  let kingdomIntelligence ← (callGroqAI (o 1)).result
  let kingdomLiving ← (callGroqAI (o 2)).result
  let prayerFocus ← (callGroqAI (o 3)).result
  let scriptureFocus ← (callGroqAI (o 4)).result
  let upcoming ← (callGroqAI (o 5)).result
  pure { sections :=
    { pastoralMessage := ⟨"From the Desk of Pastor Curtis", pastoralMessage⟩
      kingdomIntelligence := ⟨"Kingdom Intelligence", kingdomIntelligence⟩
      kingdomLiving := ⟨"Kingdom Living", kingdomLiving⟩
      prayerFocus := ⟨"Prayer Focus", prayerFocus⟩
      scriptureFocus := ⟨"Scripture of the Month", scriptureFocus⟩
      upcoming := ⟨"Upcoming at IFM", upcoming⟩ } }

/-! ## Newsletter sender (send-newsletter.js) -/

/-- `CONFIG.batchSize` in send-newsletter.js. -/
def batchSize : Nat := 10

/-- `CONFIG.batchDelay` in send-newsletter.js, in milliseconds. -/
def batchDelay : Nat := 2000

/-- Totals accumulated by the sending loop of `main`: successful sends,
failed sends (each per-recipient error is caught and counted), and the
number of inter-batch delays slept. -/
structure SendStats where
  sent : Nat
  failed : Nat
  delays : Nat
deriving DecidableEq

/-- Fuel-indexed worker for the batch loop; the fuel (one unit per batch,
amply covered by one unit per subscriber) only bounds the recursion and
the fuel-exhausted clause is never reached. -/
def sendLoopAux (ok : Subscriber → Bool) : Nat → List Subscriber → SendStats
  | _, [] => ⟨0, 0, 0⟩
  | 0, _ => ⟨0, 0, 0⟩
  | fuel + 1, subs =>
    let batch := subs.take batchSize
    let rest := subs.drop batchSize
    let s := (batch.filter ok).length
    let f := (batch.filter (fun x => !ok x)).length
    let d := if rest.isEmpty then 0 else 1
    let tail := sendLoopAux ok fuel rest
    ⟨s + tail.sent, f + tail.failed, d + tail.delays⟩

/-- Model of the batch-sending loop of `main` in send-newsletter.js:
subscribers are processed in consecutive slices of `batchSize`; inside a
batch every recipient gets one `sendEmail` call whose failure is caught
and counted without stopping anything; a `batchDelay` sleep follows every
batch for which `i + batchSize < N`, that is, every batch but the last.
`ok sub` tells whether the send to `sub` succeeds. -/
def sendAllLoop (ok : Subscriber → Bool) (subscribers : List Subscriber) : SendStats :=
  sendLoopAux ok subscribers.length subscribers

/-- Fuel-indexed worker for `batchesOf`, same fuel discipline as
`sendLoopAux`. -/
def batchesOfAux : Nat → List Subscriber → List (List Subscriber)
  | _, [] => []
  | 0, l => [l]
  | fuel + 1, subs => subs.take batchSize :: batchesOfAux fuel (subs.drop batchSize)

/-- The consecutive batches `subscribers.slice(i, i + batchSize)` visited
by the sending loop, in order. -/
def batchesOf (subscribers : List Subscriber) : List (List Subscriber) :=
  batchesOfAux subscribers.length subscribers

/-! ## Live alert notifier (send-alert.js) -/

/-- Presence of the environment-derived credentials read by send-alert.js
(`true` means the variable is set and nonempty). -/
structure AlertEnv where
  telegramBotToken : Bool
  telegramChannelId : Bool
  resendApiKey : Bool
deriving DecidableEq

/-- Outcomes of the network operations the notifier may perform: the ntfy
POST, the Telegram POST, and one Resend POST per hardcoded subscriber. -/
structure AlertOutcomes where
  ntfyOk : Bool
  telegramOk : Bool
  emailOk : Nat → Bool

/-- The hardcoded `CONFIG.email.subscribers` list of send-alert.js. -/
def alertSubscribers : List String :=
  ["curtisstephensjr@gmail.com", "deborahliadi@gmail.com", "andrewstaneatia@gmail.com",
   "hawkins.lynette@yahoo.com", "tammystephens66@yahoo.com", "cdubdub23@gmail.com"]

/-- Result of running one channel: the boolean the sender returns, and
whether it performed any network request (a missing-config skip performs
none). -/
structure ChannelRun where
  result : Bool
  attempted : Bool
deriving DecidableEq

/-- Model of `sendNtfy`: the topic is hardcoded so the POST is always
attempted; a thrown error is caught and yields `false`. -/
def sendNtfy (oc : AlertOutcomes) : ChannelRun :=
  ⟨oc.ntfyOk, true⟩

/-- Model of `sendTelegram`: with the bot token or channel id missing the
channel is skipped (returns `false` without error and without any network
request); otherwise the POST outcome decides the result. -/
def sendTelegram (env : AlertEnv) (oc : AlertOutcomes) : ChannelRun :=
  if env.telegramBotToken ∧ env.telegramChannelId then ⟨oc.telegramOk, true⟩
  else ⟨false, false⟩

/-- Model of `sendEmail` in send-alert.js: skipped without network traffic
when the Resend key is missing or the subscriber list is empty; otherwise
one POST per subscriber, each failure caught and counted, returning
whether at least one send succeeded. -/
def sendEmailAlert (env : AlertEnv) (oc : AlertOutcomes) : ChannelRun :=
  if ¬env.resendApiKey then ⟨false, false⟩
  else if alertSubscribers.isEmpty then ⟨false, false⟩
  else ⟨0 < ((List.range alertSubscribers.length).filter (fun i => oc.emailOk i)).length, true⟩

/-- The `results` object printed by `main` in send-alert.js: a key is
present (`some`) exactly when the corresponding branch ran. -/
structure NotifyResults where
  ntfy : Option Bool
  telegram : Option Bool
  email : Option Bool
deriving DecidableEq

/-- Which channels performed network requests during a run. -/
structure AttemptFlags where
  ntfy : Bool
  telegram : Bool
  email : Bool
deriving DecidableEq

/-- Model of `main` in send-alert.js: `isTest` is the `--test` flag and
`platform` the `--platform` argument (default `"all"`).  The ntfy branch
runs in test mode or when the filter selects it; the Telegram and email
branches run only outside test mode when the filter selects them.  Each
branch stores its boolean into `results` and channels are isolated: no
outcome influences whether another branch runs. -/
def mainAlert (isTest : Bool) (platform : String) (env : AlertEnv) (oc : AlertOutcomes) :
    NotifyResults × AttemptFlags :=
  let nRun := if isTest ∨ platform = "all" ∨ platform = "ntfy" then some (sendNtfy oc) else none
  let tRun := if ¬isTest ∧ (platform = "all" ∨ platform = "telegram") then some (sendTelegram env oc) else none
  let eRun := if ¬isTest ∧ (platform = "all" ∨ platform = "email") then some (sendEmailAlert env oc) else none
  (⟨nRun.map (fun r => r.result), tRun.map (fun r => r.result), eRun.map (fun r => r.result)⟩,
   ⟨nRun.elim false (fun r => r.attempted), tRun.elim false (fun r => r.attempted),
    eRun.elim false (fun r => r.attempted)⟩)

/-! ## Newsletter signup handler (netlify/functions/newsletter-signup.js) -/

/-- Split a code list at the first occurrence of `sep`, returning the
parts before and after it. -/
def splitAtFirst (sep : Nat) : List Nat → Option (List Nat × List Nat)
  | [] => none
  | c :: t =>
    if c = sep then some ([], t)
    else
      match splitAtFirst sep t with
      | some (a, b) => some (c :: a, b)
      | none => none

/-- No `@` (64) and no whitespace, the character class `[^\s@]` of the
validation regex. -/
def noAtNoWs (l : List Nat) : Bool :=
  l.all (fun c => c ≠ 64 && !isWsCode c)

/-- Model of `isValidEmail` in newsletter-signup.js: the trimmed email
must match `/^[^\s@]+@[^\s@]+\.[^\s@]+$/`, i.e. split as
`local @ rest` with nonempty `local`, no whitespace or further `@`
anywhere, and `rest` containing a dot (46) with at least one character on
each side. -/
def isValidEmail (email : List Nat) : Bool :=
  let t := trimL email
  match splitAtFirst 64 t with
  | none => false
  | some (localPart, rest) =>
    !localPart.isEmpty && noAtNoWs localPart && !rest.isEmpty && noAtNoWs rest &&
      ((rest.drop 1).dropLast).contains 46

/-- Outcome of `sendWelcomeEmail`: skipped with no network call when
`RESEND_API_KEY` is unset, an error object (not a thrown exception) on a
non-2xx Resend response, or the parsed success response. -/
inductive WelcomeResult
  | skipped
  | apiError
  | sent
deriving DecidableEq

/-- Model of `sendWelcomeEmail` in newsletter-signup.js.  `keyPresent`
tells whether `RESEND_API_KEY` is set and `apiOk` whether the Resend POST
returns 2xx; a non-2xx response is logged and returned as a value so that
a failed email never throws into the handler. -/
def sendWelcomeEmail (keyPresent : Bool) (apiOk : Bool) : WelcomeResult :=
  if ¬keyPresent then .skipped
  else if apiOk then .sent
  else .apiError

/-- The parts of the handler's HTTP response the claims are about. -/
structure SignupResponse where
  statusCode : Nat
  success : Bool
  emailSent : Bool
deriving DecidableEq

/-- Model of the Netlify function `handler` for a request whose body
parsed into `email`/`name` fields, together with a flag telling whether
the welcome-email network send was attempted.  OPTIONS gets 204, any
method other than POST gets 405, an invalid email gets 400 before
`sendWelcomeEmail` is ever called, and a valid email always gets 200 with
`success: true`, whatever `sendWelcomeEmail` returned. -/
def handler (method : String) (email : List Nat) (_name : List Nat)
    (keyPresent : Bool) (apiOk : Bool) : SignupResponse × Bool :=
  if method = "OPTIONS" then (⟨204, false, false⟩, false)
  else if method ≠ "POST" then (⟨405, false, false⟩, false)
  else if ¬isValidEmail email then (⟨400, false, false⟩, false)
  else
    let emailResult := sendWelcomeEmail keyPresent apiOk
    (⟨200, true, emailResult = .sent⟩, keyPresent)

/-! ## Lemmas about the string-code utilities -/

/-- ASCII lower-casing is idempotent on code points. -/
theorem lowerCode_idem (n : Nat) : lowerCode (lowerCode n) = lowerCode n := by
  by_cases h : 65 ≤ n ∧ n ≤ 90
  · have e1 : lowerCode n = n + 32 := by simp only [lowerCode, if_pos h]
    have e2 : lowerCode (n + 32) = n + 32 := by
      simp only [lowerCode, if_neg (show ¬(65 ≤ n + 32 ∧ n + 32 ≤ 90) by omega)]
    rw [e1, e2]
  · have e1 : lowerCode n = n := by simp only [lowerCode, if_neg h]
    rw [e1, e1]

/-- Lower-casing never turns a character into whitespace or back. -/
theorem isWsCode_lowerCode (n : Nat) : isWsCode (lowerCode n) = isWsCode n := by
  by_cases h : 65 ≤ n ∧ n ≤ 90
  · have h1 : isWsCode (n + 32) = false := by
      simp only [isWsCode, decide_eq_false_iff_not]
      omega
    have h2 : isWsCode n = false := by
      simp only [isWsCode, decide_eq_false_iff_not]
      omega
    simp [lowerCode, h, h1, h2]
  · simp [lowerCode, h]

/-- Lower-casing a whole string is idempotent. -/
theorem lowerL_idem (l : List Nat) : lowerL (lowerL l) = lowerL l := by
  induction l with
  | nil => rfl
  | cons a t ih =>
    simp only [lowerL, List.map_cons, List.map_map] at ih ⊢
    rw [lowerCode_idem]
    exact congrArg _ ih

/-- A list of whitespace loses everything to the leading trim. -/
theorem dropWs_all_ws (l : List Nat) (h : ∀ c ∈ l, isWsCode c = true) : dropWs l = [] := by
  induction l with
  | nil => rfl
  | cons a t ih =>
    rw [dropWs, List.dropWhile_cons, if_pos (h a (List.mem_cons_self a t))]
    exact ih (fun c hc => h c (List.mem_cons_of_mem a hc))

/-- The head surviving the leading trim is not whitespace. -/
theorem dropWs_head_not_ws (l : List Nat) (c : Nat) (t : List Nat)
    (h : dropWs l = c :: t) : isWsCode c = false := by
  induction l with
  | nil => simp [dropWs] at h
  | cons a l ih =>
    by_cases ha : isWsCode a = true
    · rw [dropWs, List.dropWhile_cons, if_pos ha] at h
      exact ih h
    · rw [dropWs, List.dropWhile_cons, if_neg ha] at h
      cases h
      simpa using ha

/-- Leading trim does nothing when the head is not whitespace. -/
theorem dropWs_cons_not_ws (c : Nat) (t : List Nat) (h : isWsCode c = false) :
    dropWs (c :: t) = c :: t := by
  rw [dropWs, List.dropWhile_cons, if_neg]
  simp [h]

/-- Unfolding equation for the trailing trim on a cons cell. -/
theorem rstripWs_cons (x : Nat) (xs : List Nat) :
    rstripWs (x :: xs)
      = if (rstripWs xs).isEmpty = true ∧ isWsCode x = true then [] else x :: rstripWs xs := rfl

/-- Mapping a function over a list preserves emptiness. -/
theorem map_isEmpty (f : Nat → Nat) (l : List Nat) : (List.map f l).isEmpty = l.isEmpty := by
  cases l <;> rfl

/-- The trailing trim is idempotent. -/
theorem rstripWs_idem (l : List Nat) : rstripWs (rstripWs l) = rstripWs l := by
  induction l with
  | nil => rfl
  | cons c t ih =>
    by_cases h : (rstripWs t).isEmpty ∧ isWsCode c
    · simp only [rstripWs, if_pos h]
    · simp only [rstripWs, if_neg h, ih]

/-- The trailing trim of a cons is empty or keeps the same head. -/
theorem rstripWs_cons_shape (c : Nat) (t : List Nat) :
    rstripWs (c :: t) = [] ∨ ∃ r, rstripWs (c :: t) = c :: r := by
  by_cases h : (rstripWs t).isEmpty ∧ isWsCode c
  · exact Or.inl (by simp only [rstripWs, if_pos h])
  · exact Or.inr ⟨rstripWs t, by simp only [rstripWs, if_neg h]⟩

/-- After a full trim, the front is still free of whitespace. -/
theorem dropWs_rstripWs_dropWs (l : List Nat) :
    dropWs (rstripWs (dropWs l)) = rstripWs (dropWs l) := by
  cases hd : dropWs l with
  | nil => rfl
  | cons c t =>
    have hc : isWsCode c = false := dropWs_head_not_ws l c t hd
    rcases rstripWs_cons_shape c t with h | ⟨r, h⟩
    · rw [h]; rfl
    · rw [h]
      exact dropWs_cons_not_ws c r hc

/-- The full trim is idempotent. -/
theorem trimL_idem (l : List Nat) : trimL (trimL l) = trimL l := by
  rw [trimL, trimL, dropWs_rstripWs_dropWs, rstripWs_idem]

/-- Lower-casing commutes with the leading trim. -/
theorem lowerL_dropWs (l : List Nat) : lowerL (dropWs l) = dropWs (lowerL l) := by
  induction l with
  | nil => rfl
  | cons a t ih =>
    simp only [lowerL, List.map_cons, dropWs] at ih ⊢
    by_cases ha : isWsCode a = true
    · have ha2 : isWsCode (lowerCode a) = true := by rw [isWsCode_lowerCode]; exact ha
      rw [List.dropWhile_cons, if_pos ha, List.dropWhile_cons, if_pos ha2]
      exact ih
    · have ha2 : ¬ isWsCode (lowerCode a) = true := by rw [isWsCode_lowerCode]; exact ha
      rw [List.dropWhile_cons, if_neg ha, List.dropWhile_cons, if_neg ha2]
      rfl

/-- Lower-casing commutes with the trailing trim. -/
theorem lowerL_rstripWs (l : List Nat) : lowerL (rstripWs l) = rstripWs (lowerL l) := by
  induction l with
  | nil => rfl
  | cons c t ih =>
    simp only [lowerL, List.map_cons] at ih ⊢
    by_cases h : (rstripWs t).isEmpty = true ∧ isWsCode c = true
    · have h2 : (rstripWs (List.map lowerCode t)).isEmpty = true ∧ isWsCode (lowerCode c) = true := by
        rw [← ih, map_isEmpty, isWsCode_lowerCode]
        exact h
      rw [rstripWs_cons, if_pos h, rstripWs_cons, if_pos h2]
      rfl
    · have h2 : ¬((rstripWs (List.map lowerCode t)).isEmpty = true ∧ isWsCode (lowerCode c) = true) := by
        rw [← ih, map_isEmpty, isWsCode_lowerCode]
        exact h
      rw [rstripWs_cons, if_neg h, rstripWs_cons, if_neg h2, List.map_cons, ih]

/-- Lower-casing commutes with the full trim. -/
theorem lowerL_trimL (l : List Nat) : lowerL (trimL l) = trimL (lowerL l) := by
  rw [trimL, trimL, lowerL_rstripWs, lowerL_dropWs]

/-- The email key of subscribers.js is idempotent: normalising an already
normalised email changes nothing. -/
theorem normEmail_idem (e : List Nat) : normEmail (normEmail e) = normEmail e := by
  simp only [normEmail]
  rw [lowerL_trimL, lowerL_idem, trimL_idem]

/-- Whitespace vanishes entirely under the trailing trim. -/
theorem rstripWs_all_ws (l : List Nat) (h : ∀ c ∈ l, isWsCode c = true) : rstripWs l = [] := by
  induction l with
  | nil => rfl
  | cons c t ih =>
    have ht : rstripWs t = [] := ih (fun x hx => h x (List.mem_cons_of_mem c hx))
    rw [rstripWs_cons, if_pos ⟨by rw [ht]; rfl, h c (List.mem_cons_self c t)⟩]

/-- Appending trailing whitespace does not change the trailing trim. -/
theorem rstripWs_append_ws (l s : List Nat) (hs : ∀ c ∈ s, isWsCode c = true) :
    rstripWs (l ++ s) = rstripWs l := by
  induction l with
  | nil => simpa using rstripWs_all_ws s hs
  | cons c t ih => rw [List.cons_append, rstripWs_cons, ih, rstripWs_cons]

/-- Prepending leading whitespace does not change the leading trim. -/
theorem dropWs_append_ws (p l : List Nat) (hp : ∀ c ∈ p, isWsCode c = true) :
    dropWs (p ++ l) = dropWs l := by
  induction p with
  | nil => rfl
  | cons c t ih =>
    rw [List.cons_append, dropWs, List.dropWhile_cons, if_pos (hp c (List.mem_cons_self c t))]
    exact ih (fun x hx => hp x (List.mem_cons_of_mem c hx))

/-- Leading trim of an append, by cases on whether the first part is all
whitespace. -/
theorem dropWs_append (a b : List Nat) :
    dropWs (a ++ b) = if (dropWs a).isEmpty = true then dropWs b else dropWs a ++ b := by
  induction a with
  | nil => simp [dropWs]
  | cons c t ih =>
    by_cases hc : isWsCode c = true
    · have h1 : dropWs (c :: t ++ b) = dropWs (t ++ b) := by
        simp only [List.cons_append, dropWs, List.dropWhile_cons, hc, if_true]
      have h2 : dropWs (c :: t) = dropWs t := by
        simp only [dropWs, List.dropWhile_cons, hc, if_true]
      rw [h1, h2, ih]
    · have h1 : dropWs (c :: t ++ b) = c :: (t ++ b) := by
        simp [List.cons_append, dropWs, List.dropWhile_cons, hc]
      have h2 : dropWs (c :: t) = c :: t := dropWs_cons_not_ws c t (by simpa using hc)
      rw [h1, h2]
      rfl

/-- Wrapping a string in whitespace does not change its full trim. -/
theorem trimL_ws_wrap (p e s : List Nat)
    (hp : ∀ c ∈ p, isWsCode c = true) (hs : ∀ c ∈ s, isWsCode c = true) :
    trimL (p ++ e ++ s) = trimL e := by
  rw [List.append_assoc, trimL, dropWs_append_ws p (e ++ s) hp, dropWs_append e s]
  by_cases he : (dropWs e).isEmpty = true
  · rw [if_pos he]
    have hse : dropWs s = [] := dropWs_all_ws s hs
    rw [hse]
    have : dropWs e = [] := by
      cases hde : dropWs e
      · rfl
      · rw [hde] at he; simp at he
    rw [trimL, this]
  · rw [if_neg he, rstripWs_append_ws (dropWs e) s hs, trimL]

/-- Every subscriber emitted by the dedup worker has a normalised email
that is not in the seen set. -/
theorem dedupAux_mem (seen : List (List Nat)) (l : List Subscriber) (x : Subscriber)
    (hx : x ∈ dedupAux seen l) : normEmail x.email = x.email ∧ x.email ∉ seen := by
  induction l generalizing seen with
  | nil => simp [dedupAux] at hx
  | cons s t ih =>
    rw [dedupAux] at hx
    by_cases h : normEmail s.email ∈ seen
    · rw [if_pos h] at hx
      exact ih seen hx
    · rw [if_neg h] at hx
      rcases List.mem_cons.mp hx with hx | hx
      · subst hx
        exact ⟨normEmail_idem s.email, h⟩
      · have := ih (normEmail s.email :: seen) hx
        exact ⟨this.1, fun hc => this.2 (List.mem_cons_of_mem _ hc)⟩

/-- The dedup worker emits pairwise distinct emails. -/
theorem dedupAux_pairwise (seen : List (List Nat)) (l : List Subscriber) :
    (dedupAux seen l).Pairwise (fun a b => a.email ≠ b.email) := by
  induction l generalizing seen with
  | nil => exact List.Pairwise.nil
  | cons s t ih =>
    rw [dedupAux]
    by_cases h : normEmail s.email ∈ seen
    · rw [if_pos h]
      exact ih seen
    · rw [if_neg h]
      refine List.Pairwise.cons ?_ (ih (normEmail s.email :: seen))
      intro y hy
      have := (dedupAux_mem _ _ y hy).2
      intro hc
      exact this (by rw [← hc]; exact List.mem_cons_self _ _)

/-- The dedup worker is the identity on lists that are already
deduplicated: all emails normalised, pairwise distinct, none seen. -/
theorem dedupAux_fixed (seen : List (List Nat)) (l : List Subscriber)
    (hnorm : ∀ x ∈ l, normEmail x.email = x.email)
    (hnodup : l.Pairwise (fun a b => a.email ≠ b.email))
    (hseen : ∀ x ∈ l, x.email ∉ seen) :
    dedupAux seen l = l := by
  induction l generalizing seen with
  | nil => rfl
  | cons s t ih =>
    have hs : normEmail s.email = s.email := hnorm s (List.mem_cons_self s t)
    rw [dedupAux, hs, if_neg (hseen s (List.mem_cons_self s t))]
    have ht : dedupAux (s.email :: seen) t = t := by
      refine ih (s.email :: seen) (fun x hx => hnorm x (List.mem_cons_of_mem s hx))
        (List.pairwise_cons.mp hnodup).2 ?_
      intro x hx
      rw [List.mem_cons]
      push_neg
      refine ⟨?_, hseen x (List.mem_cons_of_mem s hx)⟩
      intro hc
      exact (List.pairwise_cons.mp hnodup).1 x hx hc.symm
    rw [ht]

/-- The entries of the dedup output carrying a given fresh key are exactly
one normalised copy of the first input entry with that key (or nothing
when no input entry has the key). -/
theorem dedupAux_filter (seen : List (List Nat)) (l : List Subscriber) (k : List Nat)
    (hk : k ∉ seen) :
    (dedupAux seen l).filter (fun x => x.email = k)
      = match l.find? (fun x => normEmail x.email = k) with
        | some f => [{ f with email := k }]
        | none => [] := by
  induction l generalizing seen with
  | nil => rfl
  | cons s t ih =>
    rw [dedupAux]
    by_cases hsk : normEmail s.email = k
    · rw [List.find?_cons_of_pos _ (by simp [hsk]), hsk, if_neg hk]
      rw [List.filter_cons_of_pos (by simp)]
      have hrest : (dedupAux (k :: seen) t).filter (fun x => x.email = k) = [] := by
        rw [List.filter_eq_nil_iff]
        intro y hy
        have hni := (dedupAux_mem _ _ y hy).2
        simp only [decide_eq_true_eq]
        intro hc
        exact hni (by rw [hc]; exact List.mem_cons_self _ _)
      rw [hrest]
    · rw [List.find?_cons_of_neg _ (by simp [hsk])]
      by_cases hseen : normEmail s.email ∈ seen
      · rw [if_pos hseen]
        exact ih seen hk
      · rw [if_neg hseen]
        rw [List.filter_cons_of_neg (by simp [hsk])]
        exact ih (normEmail s.email :: seen) (by
          rw [List.mem_cons]
          push_neg
          exact ⟨fun hc => hsk hc.symm, hk⟩)

/-- The entry found by a find? scan of a list sorted by ascending
timestamp is minimal among all matching entries. -/
theorem find?_min_subscribedAt (p : Subscriber → Bool) (l : List Subscriber) (f : Subscriber)
    (hf : l.find? p = some f)
    (hsorted : l.Pairwise (fun a b => a.subscribedAt ≤ b.subscribedAt)) :
    ∀ x ∈ l, p x = true → f.subscribedAt ≤ x.subscribedAt := by
  induction l with
  | nil => simp at hf
  | cons s t ih =>
    by_cases hps : p s = true
    · rw [List.find?_cons_of_pos _ hps] at hf
      injection hf with hsf
      subst hsf
      intro x hx _
      rcases List.mem_cons.mp hx with rfl | hx
      · exact le_refl _
      · exact (List.pairwise_cons.mp hsorted).1 x hx
    · rw [List.find?_cons_of_neg _ hps] at hf
      intro x hx hpx
      rcases List.mem_cons.mp hx with rfl | hx
      · exact absurd hpx hps
      · exact ih hf (List.pairwise_cons.mp hsorted).2 x hx hpx

/-! ## Claim C6 -/

/-- C6: deduplicateSubscribers is idempotent — applying it twice equals
applying it once — and deduplication is case-insensitive on email: any
input subscriber's key occurs exactly once in the output, and emails that
differ only in ASCII letter case or in surrounding whitespace share one
key, so such subscribers collapse to a single output entry. -/
theorem claim_C6 :
    (∀ l : List Subscriber,
        deduplicateSubscribers (deduplicateSubscribers l) = deduplicateSubscribers l)
  ∧ (∀ (l : List Subscriber) (a : Subscriber), a ∈ l →
      ((deduplicateSubscribers l).filter (fun x => x.email = normEmail a.email)).length = 1)
  ∧ (∀ (p s e₁ e₂ : List Nat), (∀ c ∈ p, isWsCode c = true) → (∀ c ∈ s, isWsCode c = true) →
      lowerL e₁ = lowerL e₂ → normEmail (p ++ e₁ ++ s) = normEmail e₂) := by
  refine ⟨?_, ?_, ?_⟩
  · intro l
    exact dedupAux_fixed [] (dedupAux [] l)
      (fun x hx => (dedupAux_mem [] l x hx).1)
      (dedupAux_pairwise [] l)
      (fun x _ => List.not_mem_nil x.email)
  · intro l a ha
    have h := dedupAux_filter [] l (normEmail a.email) (List.not_mem_nil _)
    obtain ⟨f, hf⟩ : ∃ f,
        l.find? (fun x => normEmail x.email = normEmail a.email) = some f := by
      have h2 : (l.find? (fun x => decide (normEmail x.email = normEmail a.email))).isSome = true :=
        List.find?_isSome.mpr ⟨a, ha, by simp⟩
      exact Option.isSome_iff_exists.mp h2
    rw [deduplicateSubscribers, h, hf]
    rfl
  · intro p s e₁ e₂ hp hs he
    have hwp : ∀ c ∈ lowerL p, isWsCode c = true := by
      intro c hc
      obtain ⟨d, hd, rfl⟩ := List.mem_map.mp hc
      rw [isWsCode_lowerCode]
      exact hp d hd
    have hws : ∀ c ∈ lowerL s, isWsCode c = true := by
      intro c hc
      obtain ⟨d, hd, rfl⟩ := List.mem_map.mp hc
      rw [isWsCode_lowerCode]
      exact hs d hd
    have hmap : lowerL (p ++ e₁ ++ s) = lowerL p ++ lowerL e₁ ++ lowerL s := by
      simp [lowerL]
    simp only [normEmail]
    rw [hmap, trimL_ws_wrap (lowerL p) (lowerL e₁) (lowerL s) hwp hws, he]

/-- Concrete input for the C6 witness: the same address with different
case and surrounding whitespace. -/
def exC6 : List Subscriber :=
  [⟨codes "John", codes " John@Email.com ", 1⟩, ⟨codes "J", codes "john@email.com", 2⟩]

/-- Witness for C6 at a concrete subscriber list. -/
theorem claim_C6_witness :
    (deduplicateSubscribers (deduplicateSubscribers exC6) = deduplicateSubscribers exC6)
  ∧ ((deduplicateSubscribers exC6).filter
      (fun x => x.email = normEmail (codes " John@Email.com "))).length = 1
  ∧ normEmail (codes " " ++ codes "ABC@x.y" ++ codes " ") = normEmail (codes "abc@x.y") :=
  ⟨claim_C6.1 exC6,
   claim_C6.2.1 exC6 ⟨codes "John", codes " John@Email.com ", 1⟩ (by decide),
   claim_C6.2.2 (codes " ") (codes " ") (codes "ABC@x.y") (codes "abc@x.y")
     (by decide) (by decide) (by decide)⟩

/-! ## Claim C7 -/

/-- Concrete input refuting C7 as stated: two entries with the same email
key where the later-timestamped one comes first. -/
def exC7 : List Subscriber :=
  [⟨codes "A", codes "a@b.c", 5⟩, ⟨codes "B", codes "A@B.C", 3⟩]

/-- C7 counterexample: on `exC7` both entries share the email key, the
earliest subscribedAt is 3, yet deduplication keeps the entry with
subscribedAt 5 — it keeps the first-seen entry, not the earliest one. -/
theorem claim_C7_counterexample :
    normEmail (codes "a@b.c") = normEmail (codes "A@B.C")
  ∧ exC7.map (fun x => x.subscribedAt) = [5, 3]
  ∧ (deduplicateSubscribers exC7).map (fun x => x.subscribedAt) = [5] := by
  refine ⟨by decide, by decide, by decide⟩

/-- C7 (amended): deduplication keyed by the lower-cased trimmed email
keeps, for each email key, the first-seen entry in input order; that
entry has the earliest subscribedAt among its key only when the input
list is sorted by ascending subscribedAt. -/
theorem claim_C7_amended (l : List Subscriber) (a : Subscriber) (ha : a ∈ l) :
    ∃ f, l.find? (fun x => normEmail x.email = normEmail a.email) = some f
      ∧ (deduplicateSubscribers l).filter (fun x => x.email = normEmail a.email)
          = [{ f with email := normEmail a.email }]
      ∧ (l.Pairwise (fun x y => x.subscribedAt ≤ y.subscribedAt) →
          ∀ x ∈ l, normEmail x.email = normEmail a.email →
            f.subscribedAt ≤ x.subscribedAt) := by
  obtain ⟨f, hf⟩ : ∃ f,
      l.find? (fun x => normEmail x.email = normEmail a.email) = some f := by
    have h2 : (l.find? (fun x => decide (normEmail x.email = normEmail a.email))).isSome = true :=
      List.find?_isSome.mpr ⟨a, ha, by simp⟩
    exact Option.isSome_iff_exists.mp h2
  refine ⟨f, hf, ?_, ?_⟩
  · have h := dedupAux_filter [] l (normEmail a.email) (List.not_mem_nil _)
    rw [deduplicateSubscribers, h, hf]
  · intro hsorted x hx hxk
    exact find?_min_subscribedAt _ l f hf hsorted x hx (by simp [hxk])

/-- Concrete sorted input for the C7 witness. -/
def exC7s : List Subscriber :=
  [⟨codes "B", codes "A@B.C", 3⟩, ⟨codes "A", codes "a@b.c", 5⟩]

/-- Witness for the amended C7 on a list sorted by ascending
subscribedAt: the kept entry has the minimal timestamp 3. -/
theorem claim_C7_witness :
    ∃ f, exC7s.find? (fun x => normEmail x.email = normEmail (codes "a@b.c")) = some f
      ∧ (deduplicateSubscribers exC7s).filter (fun x => x.email = normEmail (codes "a@b.c"))
          = [{ f with email := normEmail (codes "a@b.c") }]
      ∧ f.subscribedAt ≤ 3 := by
  obtain ⟨f, h1, h2, h3⟩ := claim_C7_amended exC7s ⟨codes "A", codes "a@b.c", 5⟩ (by decide)
  exact ⟨f, h1, h2, h3 (by decide) ⟨codes "B", codes "A@B.C", 3⟩ (by decide) (by decide)⟩

/-! ## Claim C1 -/

/-- Filtering for a key after removing it yields nothing. -/
theorem filter_of_filter_ne (l : List ArchiveEntry) (dk : String) :
    (l.filter (fun e => e.dateKey ≠ dk)).filter (fun e => e.dateKey = dk) = [] := by
  rw [List.filter_eq_nil_iff]
  intro a ha
  have h := (List.mem_filter.mp ha).2
  simp only [decide_eq_true_eq] at h ⊢
  simpa using h

/-- Removing one key leaves the entries of every other key untouched. -/
theorem filter_ne_comm (l : List ArchiveEntry) (dk d : String) (hd : d ≠ dk) :
    (l.filter (fun e => e.dateKey ≠ dk)).filter (fun e => e.dateKey = d)
      = l.filter (fun e => e.dateKey = d) := by
  induction l with
  | nil => rfl
  | cons a t ih =>
    by_cases had : a.dateKey = d
    · have hadk : ¬(a.dateKey = dk) := by rw [had]; exact hd
      have h1 : (a :: t).filter (fun e => e.dateKey ≠ dk)
          = a :: t.filter (fun e => e.dateKey ≠ dk) :=
        List.filter_cons_of_pos (by simp [hadk])
      rw [h1, List.filter_cons_of_pos (by simp [had]),
        List.filter_cons_of_pos (by simp [had]), ih]
    · by_cases hadk : a.dateKey = dk
      · have h1 : (a :: t).filter (fun e => e.dateKey ≠ dk)
            = t.filter (fun e => e.dateKey ≠ dk) :=
          List.filter_cons_of_neg (by simp [hadk])
        rw [h1, List.filter_cons_of_neg (by simp [had]), ih]
      · have h1 : (a :: t).filter (fun e => e.dateKey ≠ dk)
            = a :: t.filter (fun e => e.dateKey ≠ dk) :=
          List.filter_cons_of_pos (by simp [hadk])
        rw [h1, List.filter_cons_of_neg (by simp [had]),
          List.filter_cons_of_neg (by simp [had]), ih]

/-- C1: for every existing archive and newsletter metadata,
publishNewsletter removes all entries carrying the newsletter's
zero-padded YYYY-MM date key and prepends exactly one entry built from
the metadata, so afterwards that key has exactly one entry; entries of
every other date key are untouched, so an at-most-one-entry invariant for
them is preserved. -/
theorem claim_C1 (archive : List ArchiveEntry) (meta : NewsMeta) :
    (publishNewsletter archive meta).filter
        (fun e => e.dateKey = dateKeyOf meta.year meta.month) = [archiveEntryOf meta]
  ∧ (∀ d, d ≠ dateKeyOf meta.year meta.month →
      (publishNewsletter archive meta).filter (fun e => e.dateKey = d)
        = archive.filter (fun e => e.dateKey = d))
  ∧ (publishNewsletter archive meta).countP
      (fun e => e.dateKey = dateKeyOf meta.year meta.month) = 1
  ∧ (∀ d, d ≠ dateKeyOf meta.year meta.month →
      archive.countP (fun e => e.dateKey = d) ≤ 1 →
      (publishNewsletter archive meta).countP (fun e => e.dateKey = d) ≤ 1) := by
  have hpub : publishNewsletter archive meta
      = archiveEntryOf meta
          :: archive.filter (fun e => e.dateKey ≠ dateKeyOf meta.year meta.month) := rfl
  have hek : (archiveEntryOf meta).dateKey = dateKeyOf meta.year meta.month := rfl
  have hone : (publishNewsletter archive meta).filter
      (fun e => e.dateKey = dateKeyOf meta.year meta.month) = [archiveEntryOf meta] := by
    rw [hpub, List.filter_cons_of_pos (by simp [hek]), filter_of_filter_ne]
  have hother : ∀ d, d ≠ dateKeyOf meta.year meta.month →
      (publishNewsletter archive meta).filter (fun e => e.dateKey = d)
        = archive.filter (fun e => e.dateKey = d) := by
    intro d hd
    rw [hpub, List.filter_cons_of_neg (by simp [hek]; exact Ne.symm hd),
      filter_ne_comm _ _ _ hd]
  refine ⟨hone, hother, ?_, ?_⟩
  · rw [List.countP_eq_length_filter, hone]
    rfl
  · intro d hd hle
    rw [List.countP_eq_length_filter] at hle ⊢
    rw [hother d hd]
    exact hle

/-- Newsletter metadata of the June 2025 publish used in the C1 witness. -/
def exMeta : NewsMeta :=
  { title := "The Kingdom Report"
    subtitle := "Monthly Intelligence from Increasing Faith Ministries"
    month := 6, year := 2025, dateString := "June 2025"
    generatedAt := "2025-06-02T00:00:00.000Z"
    theme := some ⟨"Kingdom Fathers", "Fatherhood as Kingdom leadership"⟩ }

/-- A duplicated June 2025 archive entry for the C1 witness. -/
def exDupEntry (generatedAt : String) : ArchiveEntry :=
  { dateKey := "2025-06", title := "The Kingdom Report", dateString := "June 2025"
    theme := some "Kingdom Fathers", generatedAt := generatedAt
    jsonFile := "2025-06.json", htmlFile := "2025-06.html" }

/-- Archive state of end-to-end scenario 2: two duplicate entries for
2025-06 plus an unrelated month. -/
def exArchive : List ArchiveEntry :=
  [exDupEntry "2025-06-01T00:00:00.000Z", exDupEntry "2025-06-01T12:00:00.000Z",
   { dateKey := "2025-05", title := "The Kingdom Report", dateString := "May 2025"
     theme := some "Kingdom Mothers", generatedAt := "2025-05-01T00:00:00.000Z"
     jsonFile := "2025-05.json", htmlFile := "2025-05.html" }]

/-- Witness for C1 on the 2025-06 duplicate scenario. -/
theorem claim_C1_witness :
    exArchive.countP (fun e => e.dateKey = "2025-06") = 2
  ∧ (publishNewsletter exArchive exMeta).countP (fun e => e.dateKey = "2025-06") = 1
  ∧ (publishNewsletter exArchive exMeta).filter (fun e => e.dateKey = "2025-05")
      = exArchive.filter (fun e => e.dateKey = "2025-05") := by
  have hdk : dateKeyOf exMeta.year exMeta.month = "2025-06" := by decide
  refine ⟨by decide, ?_, ?_⟩
  · have h := (claim_C1 exArchive exMeta).2.2.1
    rw [hdk] at h
    exact h
  · exact (claim_C1 exArchive exMeta).2.1 "2025-05" (by rw [hdk]; decide)

/-! ## Claim C2 -/

/-- C2: gatherContent always returns a GatheredContent value; its
isFallback flag is true exactly when the aggregate article count over all
feeds is zero, in which case the result is the fixed fallback dataset
keyed by calendar month — whose December theme is "The King Has Come" —
and with at least one gathered article isFallback is false. -/
theorem claim_C2 :
    (∀ (month year : Nat) (feedResults : List (List Article)),
        ((gatherContent month year feedResults).isFallback = true ↔ feedResults.flatten = [])
      ∧ (feedResults.flatten = [] → gatherContent month year feedResults = getFallbackContent month)
      ∧ (feedResults.flatten ≠ [] → (gatherContent month year feedResults).isFallback = false))
  ∧ (getFallbackContent 12).monthlyTheme.theme = "The King Has Come" := by
  refine ⟨?_, rfl⟩
  intro month year frs
  by_cases h : frs.flatten = []
  · have hg : gatherContent month year frs = getFallbackContent month := by
      simp only [gatherContent, h]
      rfl
    refine ⟨?_, fun _ => hg, fun hc => absurd h hc⟩
    rw [hg]
    simp [getFallbackContent, h]
  · have hl : 0 < frs.flatten.length := List.length_pos.mpr h
    have hg : (gatherContent month year frs).isFallback = false := by
      simp only [gatherContent, if_pos hl]
    refine ⟨?_, fun hc => absurd hc h, fun _ => hg⟩
    rw [hg]
    simp [h]

/-- Witness for C2: all five configured feeds fail (empty results) in
December, so the gatherer returns the fallback dataset with the Advent
theme. -/
theorem claim_C2_witness :
    gatherContent 12 2025 [[], [], [], [], []] = getFallbackContent 12
  ∧ (gatherContent 12 2025 [[], [], [], [], []]).monthlyTheme.theme = "The King Has Come" := by
  have h := (claim_C2.1 12 2025 [[], [], [], [], []]).2.1 (by rfl)
  exact ⟨h, by rw [h]; exact claim_C2.2⟩

/-! ## Claim C3 -/

/-- The scoring fold of categorizeContent counts exactly the matching
keywords: each keyword adds at most 1, however often it occurs. -/
theorem score_foldl (t : List Nat) (ks : List (List Nat)) (n : Nat) :
    ks.foldl (fun score keyword => if containsSub t keyword then score + 1 else score) n
      = n + (ks.filter (fun k => containsSub t k)).length := by
  induction ks generalizing n with
  | nil => simp
  | cons k ks ih =>
    by_cases hk : containsSub t k = true
    · rw [List.foldl_cons, if_pos hk, ih,
        @List.filter_cons_of_pos _ (fun k => containsSub t k) k ks hk, List.length_cons]
      omega
    · rw [List.foldl_cons, if_neg hk, ih,
        @List.filter_cons_of_neg _ (fun k => containsSub t k) k ks hk]

/-- Membership through a stable descending insertion. -/
theorem mem_insertDesc (x y : Article) (l : List Article) :
    y ∈ insertDesc x l ↔ y = x ∨ y ∈ l := by
  induction l with
  | nil => simp [insertDesc]
  | cons z t ih =>
    rw [insertDesc]
    by_cases h : scoreVal x < scoreVal z
    · rw [if_pos h]
      simp only [List.mem_cons, ih]
      tauto
    · rw [if_neg h]
      simp only [List.mem_cons]

/-- Membership through the stable descending sort. -/
theorem mem_sortByScoreDesc (x : Article) (l : List Article) :
    x ∈ sortByScoreDesc l ↔ x ∈ l := by
  induction l with
  | nil => simp [sortByScoreDesc]
  | cons y t ih =>
    rw [sortByScoreDesc, mem_insertDesc]
    simp [ih]

/-- Inserting into a descending list keeps it descending. -/
theorem pairwise_insertDesc (x : Article) (l : List Article)
    (hl : l.Pairwise (fun a b => scoreVal b ≤ scoreVal a)) :
    (insertDesc x l).Pairwise (fun a b => scoreVal b ≤ scoreVal a) := by
  induction l with
  | nil => simp [insertDesc]
  | cons y t ih =>
    rw [insertDesc]
    by_cases h : scoreVal x < scoreVal y
    · rw [if_pos h]
      rw [List.pairwise_cons] at hl ⊢
      refine ⟨?_, ih hl.2⟩
      intro z hz
      rw [mem_insertDesc] at hz
      rcases hz with rfl | hz
      · omega
      · exact hl.1 z hz
    · rw [if_neg h]
      refine List.pairwise_cons.mpr ⟨?_, hl⟩
      intro z hz
      rcases List.mem_cons.mp hz with rfl | hz
      · omega
      · have := (List.pairwise_cons.mp hl).1 z hz
        omega

/-- The stable descending sort produces a descending list. -/
theorem pairwise_sortByScoreDesc (l : List Article) :
    (sortByScoreDesc l).Pairwise (fun a b => scoreVal b ≤ scoreVal a) := by
  induction l with
  | nil => exact List.Pairwise.nil
  | cons y t ih => exact pairwise_insertDesc y _ ih

/-- Stability of the insertion step: within one score class the insertion
preserves order, putting the inserted element first only in its own
class. -/
theorem filter_insertDesc (x : Article) (l : List Article) (s : Nat) :
    (insertDesc x l).filter (fun a => scoreVal a = s)
      = if scoreVal x = s then x :: l.filter (fun a => scoreVal a = s)
        else l.filter (fun a => scoreVal a = s) := by
  induction l with
  | nil =>
    by_cases hx : scoreVal x = s
    · simp [insertDesc, hx]
    · simp [insertDesc, hx]
  | cons y t ih =>
    rw [insertDesc]
    by_cases h : scoreVal x < scoreVal y
    · rw [if_pos h]
      by_cases hy : scoreVal y = s
      · have hx : ¬(scoreVal x = s) := by omega
        rw [List.filter_cons_of_pos (by simp [hy]), ih, if_neg hx,
          List.filter_cons_of_pos (by simp [hy]), if_neg hx]
      · rw [List.filter_cons_of_neg (by simp [hy]), ih,
          List.filter_cons_of_neg (by simp [hy])]
    · rw [if_neg h]
      by_cases hx : scoreVal x = s
      · rw [List.filter_cons_of_pos (by simp [hx]), if_pos hx]
      · rw [List.filter_cons_of_neg (by simp [hx]), if_neg hx]

/-- Stability of the sort: every score class comes out in its original
relative order. -/
theorem filter_sortByScoreDesc (l : List Article) (s : Nat) :
    (sortByScoreDesc l).filter (fun a => scoreVal a = s)
      = l.filter (fun a => scoreVal a = s) := by
  induction l with
  | nil => rfl
  | cons y t ih =>
    rw [sortByScoreDesc, filter_insertDesc]
    by_cases hy : scoreVal y = s
    · rw [if_pos hy, ih, List.filter_cons_of_pos (by simp [hy])]
    · rw [if_neg hy, ih, List.filter_cons_of_neg (by simp [hy])]

/-- C3: the relevance score of categorizeContent equals the number of
distinct keywords of the fixed 30-term list occurring case-insensitively
in the article text (title, a space, then description), so repetitions of
a keyword never add to the score; zero-score articles are discarded and
the survivors are sorted descending by score with ties keeping their
original order. -/
theorem claim_C3 :
    relevanceKeywords.Nodup
  ∧ (∀ a : Article,
      scoreOf a = (relevanceKeywords.filter (fun k => containsSub (textOf a) k)).length)
  ∧ (∀ a b : Article,
      (∀ k ∈ relevanceKeywords, containsSub (textOf a) k = containsSub (textOf b) k) →
      scoreOf a = scoreOf b)
  ∧ (∀ articles : List Article,
        (∀ x ∈ relevantOf articles, 0 < scoreVal x)
      ∧ (relevantOf articles).Pairwise (fun x y => scoreVal y ≤ scoreVal x)
      ∧ (∀ s, (relevantOf articles).filter (fun x => scoreVal x = s)
          = ((articles.map withScore).filter (fun x => 0 < scoreVal x)).filter
              (fun x => scoreVal x = s))) := by
  refine ⟨by decide, ?_, ?_, ?_⟩
  · intro a
    rw [scoreOf, score_foldl]
    exact Nat.zero_add _
  · intro a b hab
    rw [scoreOf, score_foldl, scoreOf, score_foldl, Nat.zero_add, Nat.zero_add]
    congr 1
    exact List.filter_congr (fun k hk => hab k hk)
  · intro articles
    refine ⟨?_, pairwise_sortByScoreDesc _, ?_⟩
    · intro x hx
      rw [relevantOf, mem_sortByScoreDesc] at hx
      have h := (List.mem_filter.mp hx).2
      simpa using h
    · intro s
      rw [relevantOf, filter_sortByScoreDesc]

/-- Article repeating the keyword "kingdom" five times. -/
def artRep : Article :=
  { title := codes "kingdom kingdom kingdom kingdom kingdom", link := [], description := []
    pubDate := [], category := [], source := [] }

/-- Article mentioning the keyword "kingdom" once. -/
def artOnce : Article :=
  { title := codes "kingdom", link := [], description := []
    pubDate := [], category := [], source := [] }

/-- Article matching no keyword at all. -/
def artZero : Article :=
  { title := codes "weather and traffic bulletin", link := [], description := []
    pubDate := [], category := [], source := [] }

/-- Concrete article list for the C3 witness. -/
def artsEx : List Article := [artOnce, artZero]

/-- Witness for C3: the five-fold repetition scores the same as a single
mention, and the concrete relevant list satisfies the sort and discard
properties. -/
theorem claim_C3_witness :
    scoreOf artRep = scoreOf artOnce
  ∧ 0 < scoreVal (withScore artOnce)
  ∧ (relevantOf artsEx).filter (fun x => scoreVal x = 1)
      = ((artsEx.map withScore).filter (fun x => 0 < scoreVal x)).filter
          (fun x => scoreVal x = 1) :=
  ⟨claim_C3.2.2.1 artRep artOnce (by decide),
   (claim_C3.2.2.2 artsEx).1 (withScore artOnce) (by decide),
   (claim_C3.2.2.2 artsEx).2.2 1⟩

/-! ## Claim C4 -/

/-- C4: every completion-API call makes at most maxRetries = 3 attempts
with linearly increasing backoff retryDelayMs * attempt = 2000ms,
4000ms between them; the call fails exactly when all three attempts fail,
and then the error propagates out of generateNewsletter: the pipeline
yields a complete Newsletter whose six sections are the six successful
completions, or nothing at all. -/
theorem claim_C4 :
    (∀ o : Nat → Option String,
        aiConfig.maxRetries = 3
      ∧ aiConfig.retryDelayMs = 2000
      ∧ (callGroqAI o).attempts ≤ aiConfig.maxRetries
      ∧ ((callGroqAI o).result = none ↔ o 1 = none ∧ o 2 = none ∧ o 3 = none)
      ∧ (callGroqAI o).delays
          = (List.range ((callGroqAI o).attempts - 1)).map
              (fun k => aiConfig.retryDelayMs * (k + 1)))
  ∧ (∀ os : Fin 6 → Nat → Option String,
        (generateNewsletter os = none ↔ ∃ i : Fin 6, (callGroqAI (os i)).result = none)
      ∧ (∀ nl, generateNewsletter os = some nl →
          some nl.sections.pastoralMessage.content = (callGroqAI (os 0)).result
        ∧ some nl.sections.kingdomIntelligence.content = (callGroqAI (os 1)).result
        ∧ some nl.sections.kingdomLiving.content = (callGroqAI (os 2)).result
        ∧ some nl.sections.prayerFocus.content = (callGroqAI (os 3)).result
        ∧ some nl.sections.scriptureFocus.content = (callGroqAI (os 4)).result
        ∧ some nl.sections.upcoming.content = (callGroqAI (os 5)).result)) := by
  constructor
  · intro o
    refine ⟨rfl, rfl, ?_, ?_, ?_⟩ <;>
      (rcases h1 : o 1 with _ | s1 <;> rcases h2 : o 2 with _ | s2 <;>
        rcases h3 : o 3 with _ | s3 <;>
        simp [callGroqAI, callLoop, aiConfig, h1, h2, h3, List.range_succ])
  · intro os
    rcases h0 : (callGroqAI (os 0)).result with _ | v0
    · have hg : generateNewsletter os = none := by simp [generateNewsletter, h0]
      refine ⟨⟨fun _ => ⟨0, h0⟩, fun _ => hg⟩, ?_⟩
      intro nl hnl
      rw [hg] at hnl
      cases hnl
    · rcases h1 : (callGroqAI (os 1)).result with _ | v1
      · have hg : generateNewsletter os = none := by simp [generateNewsletter, h0, h1]
        refine ⟨⟨fun _ => ⟨1, h1⟩, fun _ => hg⟩, ?_⟩
        intro nl hnl
        rw [hg] at hnl
        cases hnl
      · rcases h2 : (callGroqAI (os 2)).result with _ | v2
        · have hg : generateNewsletter os = none := by simp [generateNewsletter, h0, h1, h2]
          refine ⟨⟨fun _ => ⟨2, h2⟩, fun _ => hg⟩, ?_⟩
          intro nl hnl
          rw [hg] at hnl
          cases hnl
        · rcases h3 : (callGroqAI (os 3)).result with _ | v3
          · have hg : generateNewsletter os = none := by
              simp [generateNewsletter, h0, h1, h2, h3]
            refine ⟨⟨fun _ => ⟨3, h3⟩, fun _ => hg⟩, ?_⟩
            intro nl hnl
            rw [hg] at hnl
            cases hnl
          · rcases h4 : (callGroqAI (os 4)).result with _ | v4
            · have hg : generateNewsletter os = none := by
                simp [generateNewsletter, h0, h1, h2, h3, h4]
              refine ⟨⟨fun _ => ⟨4, h4⟩, fun _ => hg⟩, ?_⟩
              intro nl hnl
              rw [hg] at hnl
              cases hnl
            · rcases h5 : (callGroqAI (os 5)).result with _ | v5
              · have hg : generateNewsletter os = none := by
                  simp [generateNewsletter, h0, h1, h2, h3, h4, h5]
                refine ⟨⟨fun _ => ⟨5, h5⟩, fun _ => hg⟩, ?_⟩
                intro nl hnl
                rw [hg] at hnl
                cases hnl
              · have hg : generateNewsletter os = some
                    { sections :=
                      { pastoralMessage := ⟨"From the Desk of Pastor Curtis", v0⟩
                        kingdomIntelligence := ⟨"Kingdom Intelligence", v1⟩
                        kingdomLiving := ⟨"Kingdom Living", v2⟩
                        prayerFocus := ⟨"Prayer Focus", v3⟩
                        scriptureFocus := ⟨"Scripture of the Month", v4⟩
                        upcoming := ⟨"Upcoming at IFM", v5⟩ } } := by
                  simp [generateNewsletter, h0, h1, h2, h3, h4, h5]
                constructor
                · constructor
                  · intro hnone
                    rw [hg] at hnone
                    cases hnone
                  · rintro ⟨i, hi⟩
                    fin_cases i <;> simp_all
                · intro nl hnl
                  rw [hg] at hnl
                  injection hnl with hX
                  subst hX
                  refine ⟨?_, ?_, ?_, ?_, ?_, ?_⟩ <;> simp [h0, h1, h2, h3, h4, h5]

/-- Oracle for the C4 witness: the first two attempts fail, the third
succeeds. -/
def oEx : Nat → Option String :=
  fun k => if k = 3 then some "pastoral text" else none

/-- Section oracle where every call succeeds immediately. -/
def osOK : Fin 6 → Nat → Option String :=
  fun _ _ => some "section text"

/-- Section oracle where the first section exhausts all retries. -/
def osFail : Fin 6 → Nat → Option String :=
  fun i _ => if i = 0 then none else some "section text"

/-- The newsletter produced from osOK. -/
def nlEx : Newsletter :=
  { sections :=
    { pastoralMessage := ⟨"From the Desk of Pastor Curtis", "section text"⟩
      kingdomIntelligence := ⟨"Kingdom Intelligence", "section text"⟩
      kingdomLiving := ⟨"Kingdom Living", "section text"⟩
      prayerFocus := ⟨"Prayer Focus", "section text"⟩
      scriptureFocus := ⟨"Scripture of the Month", "section text"⟩
      upcoming := ⟨"Upcoming at IFM", "section text"⟩ } }

/-- Witness for C4 at concrete oracles: bounded attempts, an aborted
pipeline when one section fails all three attempts, and the section
content of a successful pipeline. -/
theorem claim_C4_witness :
    (callGroqAI oEx).attempts ≤ aiConfig.maxRetries
  ∧ generateNewsletter osFail = none
  ∧ some nlEx.sections.pastoralMessage.content = (callGroqAI (osOK 0)).result := by
  refine ⟨(claim_C4.1 oEx).2.2.1, ?_, ?_⟩
  · exact ((claim_C4.2 osFail).1).mpr ⟨0, by simp [callGroqAI, callLoop, osFail, aiConfig]⟩
  · exact ((claim_C4.2 osOK).2 nlEx (by rfl)).1


/-! ## Claim C5 -/

/-- The send loop result does not depend on the fuel, as long as the fuel
covers the list. -/
theorem sendLoopAux_fuel (ok : Subscriber → Bool) (fuel₁ : Nat) :
    ∀ (fuel₂ : Nat) (l : List Subscriber), l.length ≤ fuel₁ → l.length ≤ fuel₂ →
      sendLoopAux ok fuel₁ l = sendLoopAux ok fuel₂ l := by
  induction fuel₁ with
  | zero =>
    intro fuel₂ l h₁ _
    have hl : l = [] := List.length_eq_zero.mp (Nat.le_zero.mp h₁)
    subst hl
    cases fuel₂ <;> rfl
  | succ f ih =>
    intro fuel₂ l h₁ h₂
    cases l with
    | nil => cases fuel₂ <;> rfl
    | cons a t =>
      cases fuel₂ with
      | zero => simp at h₂
      | succ f₂ =>
        have hd₁ : ((a :: t).drop batchSize).length ≤ f := by
          simp only [List.length_drop, List.length_cons, batchSize] at h₁ ⊢
          omega
        have hd₂ : ((a :: t).drop batchSize).length ≤ f₂ := by
          simp only [List.length_drop, List.length_cons, batchSize] at h₂ ⊢
          omega
        simp only [sendLoopAux]
        rw [ih f₂ ((a :: t).drop batchSize) hd₁ hd₂]

/-- Unfolding equation of the batch-sending loop on a nonempty list. -/
theorem sendAllLoop_cons (ok : Subscriber → Bool) (a : Subscriber) (t : List Subscriber) :
    sendAllLoop ok (a :: t) =
      ⟨(((a :: t).take batchSize).filter ok).length
          + (sendAllLoop ok ((a :: t).drop batchSize)).sent,
       (((a :: t).take batchSize).filter (fun x => !ok x)).length
          + (sendAllLoop ok ((a :: t).drop batchSize)).failed,
       (if ((a :: t).drop batchSize).isEmpty then 0 else 1)
          + (sendAllLoop ok ((a :: t).drop batchSize)).delays⟩ := by
  show sendLoopAux ok (t.length + 1) (a :: t) = _
  simp only [sendLoopAux]
  rw [sendLoopAux_fuel ok t.length ((a :: t).drop batchSize).length ((a :: t).drop batchSize)
    (by simp only [List.length_drop, List.length_cons, batchSize]; omega) (le_refl _)]
  rfl

/-- The batch list does not depend on the fuel either. -/
theorem batchesOfAux_fuel (fuel₁ : Nat) :
    ∀ (fuel₂ : Nat) (l : List Subscriber), l.length ≤ fuel₁ → l.length ≤ fuel₂ →
      batchesOfAux fuel₁ l = batchesOfAux fuel₂ l := by
  induction fuel₁ with
  | zero =>
    intro fuel₂ l h₁ _
    have hl : l = [] := List.length_eq_zero.mp (Nat.le_zero.mp h₁)
    subst hl
    cases fuel₂ <;> rfl
  | succ f ih =>
    intro fuel₂ l h₁ h₂
    cases l with
    | nil => cases fuel₂ <;> rfl
    | cons a t =>
      cases fuel₂ with
      | zero => simp at h₂
      | succ f₂ =>
        have hd₁ : ((a :: t).drop batchSize).length ≤ f := by
          simp only [List.length_drop, List.length_cons, batchSize] at h₁ ⊢
          omega
        have hd₂ : ((a :: t).drop batchSize).length ≤ f₂ := by
          simp only [List.length_drop, List.length_cons, batchSize] at h₂ ⊢
          omega
        simp only [batchesOfAux]
        rw [ih f₂ ((a :: t).drop batchSize) hd₁ hd₂]

/-- Unfolding equation of the batch decomposition on a nonempty list. -/
theorem batchesOf_cons (a : Subscriber) (t : List Subscriber) :
    batchesOf (a :: t)
      = (a :: t).take batchSize :: batchesOf ((a :: t).drop batchSize) := by
  show batchesOfAux (t.length + 1) (a :: t) = _
  simp only [batchesOfAux]
  rw [batchesOfAux_fuel t.length ((a :: t).drop batchSize).length ((a :: t).drop batchSize)
    (by simp only [List.length_drop, List.length_cons, batchSize]; omega) (le_refl _)]
  rfl

/-- A filter and its negation split the length of a list. -/
theorem filter_length_split (p : Subscriber → Bool) (l : List Subscriber) :
    (l.filter p).length + (l.filter (fun x => !p x)).length = l.length := by
  induction l with
  | nil => rfl
  | cons a t ih =>
    by_cases h : p a = true
    · rw [List.filter_cons_of_pos h, List.filter_cons_of_neg (by simp [h]),
        List.length_cons, List.length_cons]
      omega
    · rw [List.filter_cons_of_neg (by simpa using h), List.filter_cons_of_pos (by simp [h]),
        List.length_cons, List.length_cons]
      omega

/-- Every subscriber is attempted exactly once: successes and failures
always add up to the list length, whatever the outcomes are. -/
theorem sendAllLoop_total (ok : Subscriber → Bool) :
    ∀ (n : Nat) (l : List Subscriber), l.length ≤ n →
      (sendAllLoop ok l).sent + (sendAllLoop ok l).failed = l.length := by
  intro n
  induction n with
  | zero =>
    intro l hl
    have h : l = [] := List.length_eq_zero.mp (Nat.le_zero.mp hl)
    subst h
    rfl
  | succ n ih =>
    intro l hl
    cases l with
    | nil => rfl
    | cons a t =>
      rw [sendAllLoop_cons]
      have hrest := ih ((a :: t).drop batchSize)
        (by simp only [List.length_drop, List.length_cons, batchSize] at hl ⊢; omega)
      have hsplit := filter_length_split ok ((a :: t).take batchSize)
      have hlen : ((a :: t).take batchSize).length + ((a :: t).drop batchSize).length
          = (a :: t).length := by
        have h := congrArg List.length (List.take_append_drop batchSize (a :: t))
        rw [List.length_append] at h
        exact h
      simp only []
      omega

/-- The number of batches is the ceiling of N over the batch size. -/
theorem batchesOf_length :
    ∀ (n : Nat) (l : List Subscriber), l.length ≤ n →
      (batchesOf l).length = (l.length + batchSize - 1) / batchSize := by
  intro n
  induction n with
  | zero =>
    intro l hl
    have h : l = [] := List.length_eq_zero.mp (Nat.le_zero.mp hl)
    subst h
    rfl
  | succ n ih =>
    intro l hl
    cases l with
    | nil => rfl
    | cons a t =>
      rw [batchesOf_cons]
      have hrest := ih ((a :: t).drop batchSize)
        (by simp only [List.length_drop, List.length_cons, batchSize] at hl ⊢; omega)
      simp only [List.length_cons, List.length_drop, batchSize] at hrest ⊢
      omega

/-- A nonempty list has at least one batch. -/
theorem batchesOf_ne_nil (l : List Subscriber) (hl : l ≠ []) : batchesOf l ≠ [] := by
  cases l with
  | nil => exact absurd rfl hl
  | cons a t =>
    rw [batchesOf_cons]
    simp

/-- The loop sleeps after every batch except the last: the delay count is
the number of batches minus one. -/
theorem sendAllLoop_delays (ok : Subscriber → Bool) :
    ∀ (n : Nat) (l : List Subscriber), l.length ≤ n →
      (sendAllLoop ok l).delays = (batchesOf l).length - 1 := by
  intro n
  induction n with
  | zero =>
    intro l hl
    have h : l = [] := List.length_eq_zero.mp (Nat.le_zero.mp hl)
    subst h
    rfl
  | succ n ih =>
    intro l hl
    cases l with
    | nil => rfl
    | cons a t =>
      rw [sendAllLoop_cons, batchesOf_cons]
      have hrest := ih ((a :: t).drop batchSize)
        (by simp only [List.length_drop, List.length_cons, batchSize] at hl ⊢; omega)
      by_cases hre : (a :: t).drop batchSize = []
      · rw [hre]
        simp [sendAllLoop, sendLoopAux, batchesOf, batchesOfAux]
      · have hne := batchesOf_ne_nil _ hre
        have hbpos : 0 < (batchesOf ((a :: t).drop batchSize)).length :=
          List.length_pos.mpr hne
        have hie : (if ((a :: t).drop batchSize).isEmpty = true then 0 else 1) = 1 := by
          have h2 : ((a :: t).drop batchSize).isEmpty = false := by
            simpa [List.isEmpty_iff] using hre
          rw [h2]
          rfl
        simp only []
        rw [hie, hrest, List.length_cons]
        omega

/-- The batches are consecutive slices: concatenated they give back the
subscriber list. -/
theorem batchesOf_flatten :
    ∀ (n : Nat) (l : List Subscriber), l.length ≤ n → (batchesOf l).flatten = l := by
  intro n
  induction n with
  | zero =>
    intro l hl
    have h : l = [] := List.length_eq_zero.mp (Nat.le_zero.mp hl)
    subst h
    rfl
  | succ n ih =>
    intro l hl
    cases l with
    | nil => rfl
    | cons a t =>
      rw [batchesOf_cons]
      have hrest := ih ((a :: t).drop batchSize)
        (by simp only [List.length_drop, List.length_cons, batchSize] at hl ⊢; omega)
      simp only [List.flatten_cons, hrest, List.take_append_drop]

/-- No batch exceeds the batch size. -/
theorem batchesOf_le :
    ∀ (n : Nat) (l : List Subscriber), l.length ≤ n →
      ∀ b ∈ batchesOf l, b.length ≤ batchSize := by
  intro n
  induction n with
  | zero =>
    intro l hl b hb
    have h : l = [] := List.length_eq_zero.mp (Nat.le_zero.mp hl)
    subst h
    simp [batchesOf, batchesOfAux] at hb
  | succ n ih =>
    intro l hl b hb
    cases l with
    | nil => simp [batchesOf, batchesOfAux] at hb
    | cons a t =>
      rw [batchesOf_cons] at hb
      rcases List.mem_cons.mp hb with rfl | hb
      · simp only [List.length_take]
        omega
      · exact ih ((a :: t).drop batchSize)
          (by simp only [List.length_drop, List.length_cons, batchSize] at hl ⊢; omega) b hb

/-- Every batch except possibly the last is full. -/
theorem batchesOf_full :
    ∀ (n : Nat) (l : List Subscriber), l.length ≤ n →
      ∀ b ∈ (batchesOf l).dropLast, b.length = batchSize := by
  intro n
  induction n with
  | zero =>
    intro l hl b hb
    have h : l = [] := List.length_eq_zero.mp (Nat.le_zero.mp hl)
    subst h
    simp [batchesOf, batchesOfAux] at hb
  | succ n ih =>
    intro l hl b hb
    cases l with
    | nil => simp [batchesOf, batchesOfAux] at hb
    | cons a t =>
      rw [batchesOf_cons] at hb
      by_cases hre : (a :: t).drop batchSize = []
      · rw [hre] at hb
        simp [batchesOf, batchesOfAux] at hb
      · have hne := batchesOf_ne_nil _ hre
        rw [List.dropLast_cons_of_ne_nil hne] at hb
        rcases List.mem_cons.mp hb with rfl | hb
        · have hlen : batchSize < (a :: t).length := by
            by_contra hc
            push_neg at hc
            exact hre (List.drop_eq_nil_of_le hc)
          simp only [List.length_take]
          omega
        · exact ih ((a :: t).drop batchSize)
            (by simp only [List.length_drop, List.length_cons, batchSize] at hl ⊢; omega) b hb

/-- C5: the sender partitions N subscribers into consecutive batches of
size batchSize = 10 (all full except possibly the last), attempts exactly
N individual sends whatever the per-send outcomes are, and sleeps the
batchDelay = 2000ms pause exactly ceil(N / batchSize) - 1 times — after
every batch except the last. -/
theorem claim_C5 (ok : Subscriber → Bool) (subscribers : List Subscriber) :
    batchSize = 10
  ∧ batchDelay = 2000
  ∧ (sendAllLoop ok subscribers).sent + (sendAllLoop ok subscribers).failed = subscribers.length
  ∧ (batchesOf subscribers).flatten = subscribers
  ∧ (∀ b ∈ batchesOf subscribers, b.length ≤ batchSize)
  ∧ (∀ b ∈ (batchesOf subscribers).dropLast, b.length = batchSize)
  ∧ (batchesOf subscribers).length = (subscribers.length + batchSize - 1) / batchSize
  ∧ (sendAllLoop ok subscribers).delays
      = (subscribers.length + batchSize - 1) / batchSize - 1 := by
  refine ⟨rfl, rfl, sendAllLoop_total ok subscribers.length subscribers (le_refl _),
    batchesOf_flatten subscribers.length subscribers (le_refl _),
    batchesOf_le subscribers.length subscribers (le_refl _),
    batchesOf_full subscribers.length subscribers (le_refl _),
    batchesOf_length subscribers.length subscribers (le_refl _), ?_⟩
  rw [sendAllLoop_delays ok subscribers.length subscribers (le_refl _),
    batchesOf_length subscribers.length subscribers (le_refl _)]

/-- Twenty-three identical subscribers, end-to-end scenario 4. -/
def subs23 : List Subscriber := List.replicate 23 ⟨[], [], 0⟩

/-- Witness for C5: 23 subscribers give batches of 10, 10 and 3 with 2
inter-batch delays and 23 attempted sends even when every send fails. -/
theorem claim_C5_witness :
    (sendAllLoop (fun _ => false) subs23).sent
      + (sendAllLoop (fun _ => false) subs23).failed = 23
  ∧ (sendAllLoop (fun _ => false) subs23).delays = 2
  ∧ (batchesOf subs23).map List.length = [10, 10, 3]
  ∧ (subs23.take batchSize).length = batchSize
  ∧ (subs23.take batchSize).length ≤ batchSize := by
  have h := claim_C5 (fun _ => false) subs23
  refine ⟨?_, ?_, by decide, ?_, ?_⟩
  · rw [h.2.2.1]
    decide
  · rw [h.2.2.2.2.2.2.2]
    decide
  · exact h.2.2.2.2.2.1 (subs23.take batchSize) (by decide)
  · exact h.2.2.2.2.1 (subs23.take batchSize) (by decide)

/-! ## Claim C8 -/

/-- The Telegram channel touches the network exactly when both
credentials are present. -/
theorem sendTelegram_attempted (env : AlertEnv) (oc : AlertOutcomes) :
    (sendTelegram env oc).attempted = true
      ↔ (env.telegramBotToken = true ∧ env.telegramChannelId = true) := by
  by_cases h : env.telegramBotToken = true ∧ env.telegramChannelId = true
  · simp [sendTelegram, h]
  · simp [sendTelegram, h]

/-- The email channel touches the network exactly when the Resend key is
present (the hardcoded subscriber list is nonempty). -/
theorem sendEmailAlert_attempted (env : AlertEnv) (oc : AlertOutcomes) :
    (sendEmailAlert env oc).attempted = true ↔ env.resendApiKey = true := by
  by_cases h : env.resendApiKey = true
  · simp [sendEmailAlert, h, alertSubscribers]
  · simp [sendEmailAlert, h]

/-- Whether the Telegram channel touches the network depends only on the
credentials, never on any outcome. -/
theorem sendTelegram_attempted_eq (env : AlertEnv) (oc : AlertOutcomes) :
    (sendTelegram env oc).attempted = (env.telegramBotToken && env.telegramChannelId) := by
  rcases hb : env.telegramBotToken <;> rcases hc : env.telegramChannelId <;>
    simp [sendTelegram, hb, hc]

/-- Whether the email channel touches the network depends only on the
API key, never on any outcome. -/
theorem sendEmailAlert_attempted_eq (env : AlertEnv) (oc : AlertOutcomes) :
    (sendEmailAlert env oc).attempted = env.resendApiKey := by
  rcases hk : env.resendApiKey <;> simp [sendEmailAlert, hk, alertSubscribers]

/-- C8: invoked with platform telegram and no bot token (and without
test mode), the notifier returns the results object with only
telegram = false — a skip, with no network request on any channel and
with ntfy and email never attempted.  In general each channel runs only
when the platform filter selects it, touches the network only when its
config is present, and which channels are attempted never depends on any
channel's outcome. -/
theorem claim_C8 :
    (∀ (env : AlertEnv) (oc : AlertOutcomes), env.telegramBotToken = false →
        (mainAlert false "telegram" env oc).1 = ⟨none, some false, none⟩
      ∧ (mainAlert false "telegram" env oc).2 = ⟨false, false, false⟩)
  ∧ (∀ (platform : String) (env : AlertEnv) (oc : AlertOutcomes),
        ((mainAlert false platform env oc).1.ntfy.isSome = true
          ↔ (platform = "all" ∨ platform = "ntfy"))
      ∧ ((mainAlert false platform env oc).1.telegram.isSome = true
          ↔ (platform = "all" ∨ platform = "telegram"))
      ∧ ((mainAlert false platform env oc).1.email.isSome = true
          ↔ (platform = "all" ∨ platform = "email"))
      ∧ ((mainAlert false platform env oc).2.ntfy = true
          ↔ (platform = "all" ∨ platform = "ntfy"))
      ∧ ((mainAlert false platform env oc).2.telegram = true
          ↔ ((platform = "all" ∨ platform = "telegram")
              ∧ env.telegramBotToken = true ∧ env.telegramChannelId = true))
      ∧ ((mainAlert false platform env oc).2.email = true
          ↔ ((platform = "all" ∨ platform = "email") ∧ env.resendApiKey = true))
      ∧ (∀ oc' : AlertOutcomes,
          (mainAlert false platform env oc).2 = (mainAlert false platform env oc').2)) := by
  constructor
  · intro env oc htok
    constructor <;>
      simp [mainAlert, sendNtfy, sendTelegram, sendEmailAlert, htok]
  · intro platform env oc
    by_cases hn : platform = "all" ∨ platform = "ntfy" <;>
      by_cases ht : platform = "all" ∨ platform = "telegram" <;>
        by_cases he : platform = "all" ∨ platform = "email" <;>
          refine ⟨?_, ?_, ?_, ?_, ?_, ?_, fun oc' => ?_⟩ <;>
            simp [mainAlert, sendNtfy, hn, ht, he, Option.elim,
              sendTelegram_attempted, sendEmailAlert_attempted,
              sendTelegram_attempted_eq, sendEmailAlert_attempted_eq]

/-- Environment of end-to-end scenario 3: no Telegram bot token. -/
def envNoTok : AlertEnv := ⟨false, true, true⟩

/-- All-success outcomes for the C8 witness. -/
def ocEx : AlertOutcomes := ⟨true, true, fun _ => true⟩

/-- Witness for C8 on the scenario-3 input. -/
theorem claim_C8_witness :
    (mainAlert false "telegram" envNoTok ocEx).1 = ⟨none, some false, none⟩
  ∧ (mainAlert false "telegram" envNoTok ocEx).2 = ⟨false, false, false⟩ :=
  claim_C8.1 envNoTok ocEx rfl

/-! ## Claim C9 -/

/-- RSS item whose plain-text title is 301 characters long. -/
def exItem : RawItem :=
  { title := List.replicate 301 97, link := [], description := []
    pubDate := [], category := [] }

/-- Feed document containing only the long-titled item. -/
def exDoc : FeedDoc := { items := [exItem], entries := [] }

set_option maxRecDepth 4000 in
/-- C9 counterexample: the claim says the text fields of every parsed
article are HTML-stripped and truncated to 300 characters, but a
301-character title passes through the parser untruncated — only the
description field is cleaned. -/
theorem claim_C9_counterexample :
    (fetchRSSFeed (codes "Feed") exDoc).map (fun a => a.title.length) = [301]
  ∧ (fetchRSSFeed (codes "Feed") exDoc).all (fun a => a.title.length ≤ 300) = false := by
  refine ⟨by decide, by decide⟩

/-- C9 (amended): the parser considers at most the first 5 RSS item
elements; only when zero RSS articles were parsed does it retry the same
document as Atom entries (also capped at 5); and the description/summary
field of every parsed article is HTML-stripped and truncated to 300
characters (titles and the other text fields are only trimmed). -/
theorem claim_C9_amended (source : List Nat) (doc : FeedDoc) :
    (fetchRSSFeed source doc).length ≤ 5
  ∧ parseRSSItems source doc.items = parseRSSItems source (doc.items.take 5)
  ∧ parseAtomEntries source doc.entries = parseAtomEntries source (doc.entries.take 5)
  ∧ (parseRSSItems source doc.items ≠ [] →
      fetchRSSFeed source doc = parseRSSItems source doc.items)
  ∧ (parseRSSItems source doc.items = [] →
      fetchRSSFeed source doc = parseAtomEntries source doc.entries)
  ∧ (∀ a ∈ fetchRSSFeed source doc,
      a.description.length ≤ 300
      ∧ ∃ raw : List Nat, a.description = (stripTags (trimL raw)).take 300) := by
  have hrsslen : (parseRSSItems source doc.items).length ≤ 5 := by
    rw [parseRSSItems, List.length_map]
    exact le_trans (List.length_filter_le _ _) (List.length_take_le _ _)
  have hatomlen : (parseAtomEntries source doc.entries).length ≤ 5 := by
    rw [parseAtomEntries, List.length_map]
    exact le_trans (List.length_filter_le _ _) (List.length_take_le _ _)
  have hbranch : fetchRSSFeed source doc
      = if (parseRSSItems source doc.items).isEmpty
        then parseAtomEntries source doc.entries
        else parseRSSItems source doc.items := rfl
  refine ⟨?_, ?_, ?_, ?_, ?_, ?_⟩
  · rw [hbranch]
    by_cases h : (parseRSSItems source doc.items).isEmpty = true
    · rw [if_pos h]
      exact hatomlen
    · rw [if_neg h]
      exact hrsslen
  · simp [parseRSSItems, List.take_take]
  · simp [parseAtomEntries, List.take_take]
  · intro hne
    rw [hbranch, if_neg (by simpa [List.isEmpty_iff] using hne)]
  · intro hnil
    rw [hbranch, if_pos (by simpa [List.isEmpty_iff] using hnil)]
  · intro a ha
    rw [hbranch] at ha
    by_cases h : (parseRSSItems source doc.items).isEmpty = true
    · rw [if_pos h, parseAtomEntries] at ha
      obtain ⟨en, _, rfl⟩ := List.mem_map.mp ha
      refine ⟨?_, en.summary, rfl⟩
      rw [show (mkAtomArticle source en).description
        = (stripTags (trimL en.summary)).take 300 from rfl, List.length_take]
      exact Nat.min_le_left _ _
    · rw [if_neg h, parseRSSItems] at ha
      obtain ⟨it, _, rfl⟩ := List.mem_map.mp ha
      refine ⟨?_, it.description, rfl⟩
      rw [show (mkRSSArticle source it).description
        = (stripTags (trimL it.description)).take 300 from rfl, List.length_take]
      exact Nat.min_le_left _ _

/-- A well-formed RSS item with markup in its description. -/
def exItem2 : RawItem :=
  { title := codes "Hello", link := codes "https://example.com/a"
    description := codes "<p>World</p>", pubDate := [], category := [] }

/-- Feed document for the C9 witness. -/
def exDoc2 : FeedDoc := { items := [exItem2], entries := [] }

/-- Witness for the amended C9 on a concrete document: the RSS branch is
taken and the stripped, truncated description form holds for the parsed
article. -/
theorem claim_C9_witness :
    (fetchRSSFeed (codes "Feed") exDoc2).length ≤ 5
  ∧ fetchRSSFeed (codes "Feed") exDoc2 = parseRSSItems (codes "Feed") exDoc2.items
  ∧ (mkRSSArticle (codes "Feed") exItem2).description.length ≤ 300
  ∧ ∃ raw : List Nat,
      (mkRSSArticle (codes "Feed") exItem2).description = (stripTags (trimL raw)).take 300 := by
  have h := claim_C9_amended (codes "Feed") exDoc2
  have hm := h.2.2.2.2.2 (mkRSSArticle (codes "Feed") exItem2) (by decide)
  exact ⟨h.1, h.2.2.2.1 (by decide), hm.1, hm.2⟩

/-! ## Claim C10 -/

/-- C10: a POST to the signup handler with a syntactically valid email
always gets statusCode 200 with success true — whether the welcome email
was skipped for a missing key or rejected by the email API — and the
Resend call is made exactly when the key is present; an email failing
validation gets statusCode 400 and the welcome-email send is never
attempted. -/
theorem claim_C10 :
    (∀ (email name : List Nat) (keyPresent apiOk : Bool), isValidEmail email = true →
        (handler "POST" email name keyPresent apiOk).1.statusCode = 200
      ∧ (handler "POST" email name keyPresent apiOk).1.success = true
      ∧ (handler "POST" email name keyPresent apiOk).2 = keyPresent)
  ∧ (∀ (email name : List Nat) (keyPresent apiOk : Bool), isValidEmail email = false →
        (handler "POST" email name keyPresent apiOk).1.statusCode = 400
      ∧ (handler "POST" email name keyPresent apiOk).1.success = false
      ∧ (handler "POST" email name keyPresent apiOk).2 = false) := by
  constructor
  · intro email name keyPresent apiOk hv
    refine ⟨?_, ?_, ?_⟩ <;> simp [handler, hv]
  · intro email name keyPresent apiOk hv
    refine ⟨?_, ?_, ?_⟩ <;> simp [handler, hv]

/-- Witness for C10: a valid email gets 200 with the key missing and with
the API rejecting; an invalid email gets 400 with no send attempted. -/
theorem claim_C10_witness :
    (handler "POST" (codes "user@example.com") (codes "User") false true).1.statusCode = 200
  ∧ (handler "POST" (codes "user@example.com") (codes "User") true false).1.success = true
  ∧ (handler "POST" (codes "not-an-email") [] true true).1.statusCode = 400
  ∧ (handler "POST" (codes "not-an-email") [] true true).2 = false :=
  ⟨(claim_C10.1 (codes "user@example.com") (codes "User") false true (by decide)).1,
   (claim_C10.1 (codes "user@example.com") (codes "User") true false (by decide)).2.1,
   (claim_C10.2 (codes "not-an-email") [] true true (by decide)).1,
   (claim_C10.2 (codes "not-an-email") [] true true (by decide)).2.2⟩
